import Mathlib

/-! Point-transfer backend: a verification development.

A shallow embedding of the Go backend (`services`, `repositories`, `models`,
`database.go`) and proofs about the transfer engine, the lookup and listing of
transfers, and the user service.

Modelling conventions
* The SQLite database behind `*sql.DB` is an explicit value `DB`: the three
  tables as lists of rows in insertion order, plus the `sqlite_sequence`
  counters that `AUTOINCREMENT` keys are drawn from.
* A repository method that writes takes the database (or transaction) state
  and returns the new one; Go's `(value, error)` is `Except String`.
* `uuid.New()`, `models.Now()` and storage failures are inputs, gathered in
  `Env`: a call is a function of the environment, the state and the request.
* `int64` values are `Int`; where a value read from a column is scanned into
  an `int64`, the scan fails outside the `int64` range (an `INTEGER` sum that
  overflows is stored by SQLite as a `REAL`, which does not scan).
* Go's `int` (page, page size, offset) is 64 bits wide and wraps around on
  overflow (`wrapInt`).
* Row ids are unbounded integers.
-/

namespace Backend

/-! ## models/models.go -/

/-- User row, `models.User`. Times are abstract ticks. -/
structure User where
  ID : Int
  FirstName : String
  LastName : String
  Email : String
  Phone : String
  AvatarURL : String
  Bio : String
  PointsBalance : Int
  CreatedAt : Nat
  UpdatedAt : Nat
  deriving DecidableEq, Repr

/-- Transfer row, `models.Transfer`. -/
structure Transfer where
  TransferID : Int
  IdemKey : String
  FromUserID : Int
  ToUserID : Int
  Amount : Int
  Status : String
  Note : String
  CreatedAt : Nat
  UpdatedAt : Nat
  CompletedAt : Option Nat
  FailReason : Option String
  deriving DecidableEq, Repr

/-- Ledger row, `models.PointLedger`. -/
structure PointLedger where
  ID : Int
  UserID : Int
  Change : Int
  BalanceAfter : Int
  EventType : String
  TransferID : Option Int
  Reference : String
  Metadata : String
  CreatedAt : Nat
  deriving DecidableEq, Repr

/-- Request body of `POST /api/users`, `models.CreateUserRequest`. -/
structure CreateUserRequest where
  FirstName : String
  LastName : String
  Email : String
  Phone : String
  AvatarURL : String
  Bio : String
  deriving DecidableEq, Repr

/-- Request body of `PUT /api/users/:id`, `models.UpdateUserRequest`. -/
structure UpdateUserRequest where
  FirstName : String
  LastName : String
  Email : String
  Phone : String
  AvatarURL : String
  Bio : String
  deriving DecidableEq, Repr

/-- Request body of `POST /api/transfers`, `models.CreateTransferRequest`. -/
structure CreateTransferRequest where
  FromUserID : Int
  ToUserID : Int
  Amount : Int
  Note : String
  deriving DecidableEq, Repr

/-- Response of the listing, `models.TransferListResponse`. `Data` is a Go slice:
`none` is the `nil` slice, `some []` an empty slice that is not `nil`. -/
structure TransferListResponse where
  Data : Option (List Transfer)
  Page : Int
  PageSize : Int
  Total : Int
  deriving DecidableEq, Repr

/-! ## database.go: the schema -/

/-- Database state: the tables `users`, `transfers`, `point_ledger` in insertion
order and the `sqlite_sequence` value of each (largest key ever handed out). -/
structure DB where
  users : List User
  transfers : List Transfer
  ledger : List PointLedger
  userSeq : Int
  transferSeq : Int
  ledgerSeq : Int
  deriving DecidableEq, Repr

/-- Freshly migrated database: `Migrate` creates the three tables, all empty. -/
def DB.empty : DB :=
  { users := [], transfers := [], ledger := [], userSeq := 0, transferSeq := 0, ledgerSeq := 0 }

/-- Smallest `int64`. -/
def minInt64 : Int := -9223372036854775808

/-- Largest `int64`. -/
def maxInt64 : Int := 9223372036854775807

/-- Whether a column value scans into a Go `int64`. -/
def inInt64 (x : Int) : Bool := decide (minInt64 ≤ x) && decide (x ≤ maxInt64)

/-- Result of an operation on Go's `int` (64 bits on the platforms the service
is built for): the mathematical result wrapped around in two's complement. -/
def wrapInt (x : Int) : Int := (x - minInt64) % 2 ^ 64 + minInt64

/-- Key given to a new row of an `INTEGER PRIMARY KEY AUTOINCREMENT` table:
one more than the larger of the sequence value and every key in the table. -/
def nextRowID (seq : Int) (ids : List Int) : Int := ids.foldl max seq + 1

/-- Values allowed by `CHECK (status IN (...))` on `transfers`. -/
def transferStatuses : List String :=
  ["pending", "processing", "completed", "failed", "cancelled", "reversed"]

/-- Values allowed by `CHECK (event_type IN (...))` on `point_ledger`. -/
def ledgerEventTypes : List String :=
  ["transfer_out", "transfer_in", "adjust", "earn", "redeem"]

/-- Whether a `users` row with this key exists (target of the foreign keys). -/
def DB.hasUser (db : DB) (id : Int) : Bool := db.users.any (fun u => u.ID == id)

/-- Whether a `transfers` row with this key exists. -/
def DB.hasTransfer (db : DB) (id : Int) : Bool := db.transfers.any (fun t => t.TransferID == id)

/-- Balance column of the account with this id, when the account exists. -/
def DB.balance (db : DB) (id : Int) : Option Int :=
  (db.users.find? (fun u => u.ID == id)).map (fun u => u.PointsBalance)

/-- State of a database as the schema and the Go types constrain it: user keys
are `AUTOINCREMENT` primary keys (unique, at least 1), every balance is an
`int64`, and transfer keys are primary keys (unique). -/
def DB.WF (db : DB) : Prop :=
  (db.users.map (fun u => u.ID)).Nodup ∧
  (∀ u ∈ db.users, 0 < u.ID) ∧
  (∀ u ∈ db.users, inInt64 u.PointsBalance = true) ∧
  (db.transfers.map (fun t => t.TransferID)).Nodup

instance (db : DB) : Decidable db.WF := by
  unfold DB.WF; infer_instance

/-! ## The environment of a call -/

/-- Storage operations of `CreateTransfer`, in program order. -/
inductive Step where
  | lastRecipient
  | getFrom
  | getTo
  | begin
  | insertTransfer
  | updateFrom
  | updateTo
  | balanceFrom
  | balanceTo
  | ledgerOut
  | ledgerIn
  | commit
  deriving DecidableEq, Repr

/-- What one call of `CreateTransfer` takes from outside: the key minted by
`uuid.New()`, the clock readings of `models.Now()`, and which storage operations
fail (I/O error, lost connection). -/
structure Env where
  idemKey : String
  now : Nat
  nowFrom : Nat
  nowTo : Nat
  fails : Step → Bool

/-- Environment in which no storage operation fails. -/
def Env.ok (idemKey : String) (now : Nat) : Env :=
  { idemKey := idemKey, now := now, nowFrom := now, nowTo := now, fails := fun _ => false }

/-- Environment in which exactly one storage operation fails. -/
def Env.failingAt (step : Step) (idemKey : String) (now : Nat) : Env :=
  { idemKey := idemKey, now := now, nowFrom := now, nowTo := now,
    fails := fun s => decide (s = step) }

/-- Error of a storage operation that failed for a reason outside the program. -/
def storageError : String := "storage failure"

/-- Error of `Scan` when a column value does not convert to the Go type. -/
def scanError : String := "sql: Scan error: converting driver.Value type float64 to a int64"

/-- Errors a statement or query of the transaction can return: a storage failure,
a failed scan, no row, or a violated constraint of the schema. -/
def dbErrors : List String :=
  [storageError, scanError, "sql: no rows in result set",
   "CHECK constraint failed: amount > 0", "CHECK constraint failed: status",
   "UNIQUE constraint failed: transfers.idempotency_key",
   "FOREIGN KEY constraint failed", "CHECK constraint failed: event_type"]

/-! ## repositories/repository_user.go -/

/-- Query `SELECT ... FROM users WHERE id = ?` scanned into a `User`. -/
def UserRepository.GetByID (fail : Bool) (db : DB) (id : Int) : Except String User :=
  if fail then .error storageError
  else match db.users.find? (fun u => u.ID == id) with
    | none => .error "user not found"
    | some u => if inInt64 u.PointsBalance then .ok u else .error scanError

/-- Statement `INSERT INTO users (...)`; the new key is written to the struct. -/
def UserRepository.Create (fail : Bool) (db : DB) (user : User) : Except String (DB × User) :=
  if fail then .error storageError
  else
    let id := nextRowID db.userSeq (db.users.map (fun u => u.ID))
    let row := { user with ID := id }
    .ok ({ db with users := db.users ++ [row], userSeq := id }, row)

/-- Clause `SET first_name = ?, ..., updated_at = ?` of `Update` on one row: the
profile columns and `updated_at` are written, `points_balance` is not. -/
def User.setProfile (u : User) (user : User) : User :=
  { u with
    FirstName := user.FirstName
    LastName := user.LastName
    Email := user.Email
    Phone := user.Phone
    AvatarURL := user.AvatarURL
    Bio := user.Bio
    UpdatedAt := user.UpdatedAt }

/-- Statement `UPDATE users SET ... WHERE id = ?`; no row affected gives "user
not found". -/
def UserRepository.Update (fail : Bool) (db : DB) (id : Int) (user : User) : Except String DB :=
  if fail then .error storageError
  else if !db.hasUser id then .error "user not found"
  else .ok { db with users := db.users.map (fun u => if u.ID == id then u.setProfile user else u) }

/-- Statement `DELETE FROM users WHERE id = ?`, with foreign keys enforced: a user
named by a transfer or a ledger row cannot be deleted; no row affected gives
"user not found". -/
def UserRepository.Delete (fail : Bool) (db : DB) (id : Int) : Except String DB :=
  if fail then .error storageError
  else if !db.hasUser id then .error "user not found"
  else if db.transfers.any (fun t => t.FromUserID == id || t.ToUserID == id) ||
      db.ledger.any (fun e => e.UserID == id) then
    .error "FOREIGN KEY constraint failed"
  else .ok { db with users := db.users.filter (fun u => !(u.ID == id)) }

/-- Clause `SET points_balance = points_balance + ?, updated_at = ?` on one row. -/
def User.addPoints (u : User) (amount : Int) (now : Nat) : User :=
  { u with PointsBalance := u.PointsBalance + amount, UpdatedAt := now }

/-- Statement `UPDATE users SET points_balance = points_balance + ?, updated_at = ?
WHERE id = ?`, run on the transaction. -/
def UserRepository.UpdateBalance (fail : Bool) (now : Nat) (tx : DB) (userID amount : Int) :
    Except String DB :=
  if fail then .error storageError
  else .ok { tx with
    users := tx.users.map (fun u => if u.ID == userID then u.addPoints amount now else u) }

/-- Query `SELECT points_balance FROM users WHERE id = ?` scanned into an `int64`,
run on the transaction. -/
def UserRepository.GetBalance (fail : Bool) (tx : DB) (userID : Int) : Except String Int :=
  if fail then .error storageError
  else match tx.users.find? (fun u => u.ID == userID) with
    | none => .error "sql: no rows in result set"
    | some u => if inInt64 u.PointsBalance then .ok u.PointsBalance else .error scanError

/-- Row with the greatest `transfer_id`: `ORDER BY transfer_id DESC LIMIT 1`. -/
def lastByTransferID : List Transfer → Option Transfer
  | [] => none
  | t :: ts =>
    match lastByTransferID ts with
    | none => some t
    | some m => if m.TransferID < t.TransferID then some t else some m

/-- Query `SELECT to_user_id FROM transfers WHERE from_user_id = ? AND status =
'completed' ORDER BY transfer_id DESC LIMIT 1`; no row gives `0`. -/
def UserRepository.GetLastTransferRecipient (fail : Bool) (db : DB) (fromUserID : Int) :
    Except String Int :=
  if fail then .error storageError
  else match lastByTransferID
      (db.transfers.filter (fun t => t.FromUserID == fromUserID && t.Status == "completed")) with
    | none => .ok 0
    | some t => .ok t.ToUserID

/-! ## repositories/repository_transfer.go -/

/-- Statement `INSERT INTO transfers (...)` run on the transaction, with the
constraints of the schema; `fail_reason` is not in the column list and stays
`NULL`. The new key is written to the struct. -/
def TransferRepository.Create (fail : Bool) (tx : DB) (transfer : Transfer) :
    Except String (DB × Transfer) :=
  if fail then .error storageError
  else if transfer.Amount ≤ 0 then .error "CHECK constraint failed: amount > 0"
  else if transfer.Status ∉ transferStatuses then .error "CHECK constraint failed: status"
  else if tx.transfers.any (fun r => r.IdemKey == transfer.IdemKey) then
    .error "UNIQUE constraint failed: transfers.idempotency_key"
  else if !(tx.hasUser transfer.FromUserID && tx.hasUser transfer.ToUserID) then
    .error "FOREIGN KEY constraint failed"
  else
    let id := nextRowID tx.transferSeq (tx.transfers.map (fun r => r.TransferID))
    .ok ({ tx with
            transfers := tx.transfers ++ [{ transfer with TransferID := id, FailReason := none }],
            transferSeq := id },
         { transfer with TransferID := id })

/-- Query `SELECT ... FROM transfers WHERE idempotency_key = ?` of `GetByIdemKey`;
no row gives `nil`. -/
def TransferRepository.GetByIdemKey (fail : Bool) (db : DB) (key : String) :
    Except String (Option Transfer) :=
  if fail then .error storageError
  else .ok (db.transfers.find? (fun t => t.IdemKey == key))

/-- Condition `WHERE from_user_id = ? OR to_user_id = ?` of the listing. -/
def involves (userID : Int) (t : Transfer) : Bool :=
  t.FromUserID == userID || t.ToUserID == userID

/-- Order of `ORDER BY created_at DESC`: the first row is not older than the second. -/
def newerOrEqual (a b : Transfer) : Prop := b.CreatedAt ≤ a.CreatedAt

instance : DecidableRel newerOrEqual := fun a b => inferInstanceAs (Decidable (b.CreatedAt ≤ a.CreatedAt))

instance : IsTotal Transfer newerOrEqual := ⟨fun a b => Nat.le_total b.CreatedAt a.CreatedAt⟩

instance : IsTrans Transfer newerOrEqual := ⟨fun _ _ _ hab hbc => Nat.le_trans hbc hab⟩

/-- Rows in the order of `ORDER BY created_at DESC`; rows created at the same
instant are left in some order by SQLite, here the order of insertion. -/
def newestFirst (rows : List Transfer) : List Transfer := rows.insertionSort newerOrEqual

/-- Clause `LIMIT ? OFFSET ?` of SQLite: a negative offset skips nothing, a
negative limit keeps every row. -/
def limitOffset (limit offset : Int) (rows : List Transfer) : List Transfer :=
  if limit < 0 then rows.drop offset.toNat else (rows.drop offset.toNat).take limit.toNat

/-- Statement `offset := (page - 1) * pageSize` of `GetByUserID`, in Go's `int`. -/
def TransferRepository.GetByUserID.offset (page pageSize : Int) : Int :=
  wrapInt (wrapInt (page - 1) * pageSize)

/-- Method `TransferRepository.GetByUserID`: the count query, then the page
query; the slice stays `nil` when the page query returns no row. -/
def TransferRepository.GetByUserID (failCount failQuery : Bool) (db : DB)
    (userID page pageSize : Int) : Except String (Option (List Transfer) × Int) :=
  let offset := TransferRepository.GetByUserID.offset page pageSize
  if failCount then .error storageError
  else
    let total : Int := (db.transfers.filter (involves userID)).length
    if failQuery then .error storageError
    else
      let rows := limitOffset pageSize offset (newestFirst (db.transfers.filter (involves userID)))
      .ok (if rows.isEmpty then none else some rows, total)

/-! ## repositories/repository_ledger.go -/

/-- Statement `INSERT INTO point_ledger (...)` run on the transaction, with the
constraints of the schema. The new key is written to the struct. -/
def LedgerRepository.Create (fail : Bool) (tx : DB) (ledger : PointLedger) :
    Except String (DB × PointLedger) :=
  if fail then .error storageError
  else if ledger.EventType ∉ ledgerEventTypes then .error "CHECK constraint failed: event_type"
  else if !(tx.hasUser ledger.UserID &&
      (match ledger.TransferID with
        | none => true
        | some tid => tx.hasTransfer tid)) then
    .error "FOREIGN KEY constraint failed"
  else
    let id := nextRowID tx.ledgerSeq (tx.ledger.map (fun r => r.ID))
    .ok ({ tx with ledger := tx.ledger ++ [{ ledger with ID := id }], ledgerSeq := id },
         { ledger with ID := id })

/-! ## services/service_transfer.go -/

/-- Statements of `CreateTransfer` between `db.Begin()` and `tx.Commit()`
(lines 71 to 138), run on the transaction state: insert the transfer, move the
points, read both balances back, append the two ledger entries. An error leaves
the function at once. -/
def TransferService.CreateTransfer.inTx (env : Env) (tx : DB) (req : CreateTransferRequest) :
    Except String (DB × Transfer) := do
  let now := env.now
  let transfer : Transfer :=
    { TransferID := 0
      IdemKey := env.idemKey
      FromUserID := req.FromUserID
      ToUserID := req.ToUserID
      Amount := req.Amount
      Status := "completed"
      Note := req.Note
      CreatedAt := now
      UpdatedAt := now
      CompletedAt := some now
      FailReason := none }
  let (tx, transfer) ← TransferRepository.Create (env.fails .insertTransfer) tx transfer
  let tx ← UserRepository.UpdateBalance (env.fails .updateFrom) env.nowFrom tx
    req.FromUserID (-req.Amount)
  let tx ← UserRepository.UpdateBalance (env.fails .updateTo) env.nowTo tx
    req.ToUserID req.Amount
  let fromBalance ← UserRepository.GetBalance (env.fails .balanceFrom) tx req.FromUserID
  let toBalance ← UserRepository.GetBalance (env.fails .balanceTo) tx req.ToUserID
  let fromLedger : PointLedger :=
    { ID := 0
      UserID := req.FromUserID
      Change := -req.Amount
      BalanceAfter := fromBalance
      EventType := "transfer_out"
      TransferID := some transfer.TransferID
      Reference := ""
      Metadata := ""
      CreatedAt := now }
  let (tx, _) ← LedgerRepository.Create (env.fails .ledgerOut) tx fromLedger
  let toLedger : PointLedger :=
    { ID := 0
      UserID := req.ToUserID
      Change := req.Amount
      BalanceAfter := toBalance
      EventType := "transfer_in"
      TransferID := some transfer.TransferID
      Reference := ""
      Metadata := ""
      CreatedAt := now }
  let (tx, _) ← LedgerRepository.Create (env.fails .ledgerIn) tx toLedger
  return (tx, transfer)

/-- Method `TransferService.CreateTransfer`: the result and the database
afterwards. The checks run in the order of the source; the transaction works on
its own copy of the state, which replaces the database at a successful commit
and is dropped by the deferred `tx.Rollback()` on every other return. -/
def TransferService.CreateTransfer (env : Env) (db : DB) (req : CreateTransferRequest) :
    Except String Transfer × DB :=
  if req.Amount ≤ 0 then (.error "amount must be greater than 0", db)
  else match UserRepository.GetLastTransferRecipient (env.fails .lastRecipient) db req.FromUserID with
    | .error err => (.error err, db)
    | .ok lastRecipient =>
      if lastRecipient ≠ 0 ∧ lastRecipient = req.ToUserID then
        (.error "cannot transfer to the same recipient as your last transfer", db)
      else match UserRepository.GetByID (env.fails .getFrom) db req.FromUserID with
        | .error _ => (.error "from_user not found", db)
        | .ok fromUser =>
          match UserRepository.GetByID (env.fails .getTo) db req.ToUserID with
          | .error _ => (.error "to_user not found", db)
          | .ok _ =>
            if req.FromUserID = req.ToUserID then (.error "cannot transfer to yourself", db)
            else if fromUser.PointsBalance < req.Amount then (.error "insufficient balance", db)
            else if env.fails .begin then (.error storageError, db)
            else match TransferService.CreateTransfer.inTx env db req with
              | .error err => (.error err, db)
              | .ok (tx, transfer) =>
                if env.fails .commit then (.error storageError, db)
                else (.ok transfer, tx)

/-! ### The state a committed transfer leaves -/

/-- Transfer struct `CreateTransfer` returns: the request, the minted key,
status `completed`, and the key the insert assigned. -/
def newTransfer (env : Env) (db : DB) (req : CreateTransferRequest) : Transfer :=
  { TransferID := nextRowID db.transferSeq (db.transfers.map (fun r => r.TransferID))
    IdemKey := env.idemKey
    FromUserID := req.FromUserID
    ToUserID := req.ToUserID
    Amount := req.Amount
    Status := "completed"
    Note := req.Note
    CreatedAt := env.now
    UpdatedAt := env.now
    CompletedAt := some env.now
    FailReason := none }

/-- Table `users` after the two `UpdateBalance` statements. -/
def movedUsers (env : Env) (db : DB) (req : CreateTransferRequest) : List User :=
  (db.users.map (fun u =>
      if u.ID == req.FromUserID then u.addPoints (-req.Amount) env.nowFrom else u)).map
    (fun u => if u.ID == req.ToUserID then u.addPoints req.Amount env.nowTo else u)

/-- Ledger row written for the source, holding the balance read back. -/
def ledgerOutRow (env : Env) (db : DB) (req : CreateTransferRequest) (fromBalance : Int) :
    PointLedger :=
  { ID := nextRowID db.ledgerSeq (db.ledger.map (fun r => r.ID))
    UserID := req.FromUserID
    Change := -req.Amount
    BalanceAfter := fromBalance
    EventType := "transfer_out"
    TransferID := some (newTransfer env db req).TransferID
    Reference := ""
    Metadata := ""
    CreatedAt := env.now }

/-- Ledger row written for the destination, holding the balance read back. -/
def ledgerInRow (env : Env) (db : DB) (req : CreateTransferRequest) (fromBalance toBalance : Int) :
    PointLedger :=
  { ID := nextRowID (ledgerOutRow env db req fromBalance).ID
      ((db.ledger ++ [ledgerOutRow env db req fromBalance]).map (fun r => r.ID))
    UserID := req.ToUserID
    Change := req.Amount
    BalanceAfter := toBalance
    EventType := "transfer_in"
    TransferID := some (newTransfer env db req).TransferID
    Reference := ""
    Metadata := ""
    CreatedAt := env.now }

/-- Database after a committed transfer whose read-backs gave these balances. -/
def afterTransfer (env : Env) (db : DB) (req : CreateTransferRequest)
    (fromBalance toBalance : Int) : DB :=
  { users := movedUsers env db req
    transfers := db.transfers ++ [newTransfer env db req]
    ledger := db.ledger ++
      [ledgerOutRow env db req fromBalance, ledgerInRow env db req fromBalance toBalance]
    userSeq := db.userSeq
    transferSeq := (newTransfer env db req).TransferID
    ledgerSeq := (ledgerInRow env db req fromBalance toBalance).ID }

/-- No storage operation of the transaction fails, commit included. -/
def Env.txOK (env : Env) : Prop :=
  env.fails .begin = false ∧ env.fails .insertTransfer = false ∧
  env.fails .updateFrom = false ∧ env.fails .updateTo = false ∧
  env.fails .balanceFrom = false ∧ env.fails .balanceTo = false ∧
  env.fails .ledgerOut = false ∧ env.fails .ledgerIn = false ∧ env.fails .commit = false

/-- No storage operation of the checks before the transaction fails. -/
def Env.readsOK (env : Env) : Prop :=
  env.fails .lastRecipient = false ∧ env.fails .getFrom = false ∧ env.fails .getTo = false

instance (env : Env) : Decidable env.txOK := by
  unfold Env.txOK; infer_instance

instance (env : Env) : Decidable env.readsOK := by
  unfold Env.readsOK; infer_instance

/-- Method `TransferService.GetByIdemKey`. -/
def TransferService.GetByIdemKey (fail : Bool) (db : DB) (idemKey : String) :
    Except String Transfer :=
  match TransferRepository.GetByIdemKey fail db idemKey with
  | .error err => .error err
  | .ok none => .error "transfer not found"
  | .ok (some transfer) => .ok transfer

/-- Method `TransferService.GetByUserID`: page and page size are normalised, and
a `nil` slice is replaced by an empty one. -/
def TransferService.GetByUserID (failCount failQuery : Bool) (db : DB)
    (userID page pageSize : Int) : Except String TransferListResponse :=
  let page := if page < 1 then 1 else page
  let pageSize := if pageSize < 1 ∨ pageSize > 200 then 20 else pageSize
  match TransferRepository.GetByUserID failCount failQuery db userID page pageSize with
  | .error err => .error err
  | .ok (transfers, total) =>
    let transfers := match transfers with
      | none => some []
      | some ts => some ts
    .ok { Data := transfers, Page := page, PageSize := pageSize, Total := total }

/-- No two rows of `transfers` carry the same idempotency key. -/
def DB.tokensUnique (db : DB) : Prop := (db.transfers.map (fun t => t.IdemKey)).Nodup

instance (db : DB) : Decidable db.tokensUnique := by
  unfold DB.tokensUnique; infer_instance

/-! ## services/service_user.go -/

/-- Method `UserService.Create`: the result and the database afterwards.
`utf8.RuneCountInString` is the number of code points, `String.length`. -/
def UserService.Create (fail : Bool) (now : Nat) (db : DB) (req : CreateUserRequest) :
    Except String User × DB :=
  if req.FirstName.length > 3 then (.error "first_name must not exceed 3 characters", db)
  else if req.LastName.length > 3 then (.error "last_name must not exceed 3 characters", db)
  else if req.FirstName = "" ∨ req.LastName = "" then
    (.error "first_name and last_name are required", db)
  else
    let user : User :=
      { ID := 0
        FirstName := req.FirstName
        LastName := req.LastName
        Email := req.Email
        Phone := req.Phone
        AvatarURL := req.AvatarURL
        Bio := req.Bio
        PointsBalance := 0
        CreatedAt := now
        UpdatedAt := now }
    match UserRepository.Create fail db user with
    | .error err => (.error err, db)
    | .ok (db, user) => (.ok user, db)

/-- Method `UserService.Update`: the result and the database afterwards. The
balance of the row read by `GetByID` is not among the columns written back. -/
def UserService.Update (failGet failUpdate : Bool) (now : Nat) (db : DB) (id : Int)
    (req : UpdateUserRequest) : Except String User × DB :=
  if req.FirstName ≠ "" ∧ req.FirstName.length > 3 then
    (.error "first_name must not exceed 3 characters", db)
  else if req.LastName ≠ "" ∧ req.LastName.length > 3 then
    (.error "last_name must not exceed 3 characters", db)
  else match UserRepository.GetByID failGet db id with
    | .error err => (.error err, db)
    | .ok existing =>
      let existing : User :=
        { existing with
          FirstName := if req.FirstName ≠ "" then req.FirstName else existing.FirstName
          LastName := if req.LastName ≠ "" then req.LastName else existing.LastName
          Email := if req.Email ≠ "" then req.Email else existing.Email
          Phone := if req.Phone ≠ "" then req.Phone else existing.Phone
          AvatarURL := if req.AvatarURL ≠ "" then req.AvatarURL else existing.AvatarURL
          Bio := if req.Bio ≠ "" then req.Bio else existing.Bio
          UpdatedAt := now }
      match UserRepository.Update failUpdate db id existing with
      | .error err => (.error err, db)
      | .ok db => (.ok existing, db)

/-- Method `UserService.Delete`: the error, if any, and the database afterwards. -/
def UserService.Delete (fail : Bool) (db : DB) (id : Int) : Except String Unit × DB :=
  match UserRepository.Delete fail db id with
  | .error err => (.error err, db)
  | .ok db => (.ok (), db)

/-- States reached from the freshly migrated database through the four writing
operations of the services, in any environment. -/
inductive ServiceReachable : DB → Prop where
  | empty : ServiceReachable DB.empty
  | createUser (fail : Bool) (now : Nat) (db : DB) (req : CreateUserRequest) :
      ServiceReachable db → ServiceReachable (UserService.Create fail now db req).2
  | updateUser (failGet failUpdate : Bool) (now : Nat) (db : DB) (id : Int)
      (req : UpdateUserRequest) :
      ServiceReachable db →
        ServiceReachable (UserService.Update failGet failUpdate now db id req).2
  | deleteUser (fail : Bool) (db : DB) (id : Int) :
      ServiceReachable db → ServiceReachable (UserService.Delete fail db id).2
  | createTransfer (env : Env) (db : DB) (req : CreateTransferRequest) :
      ServiceReachable db → ServiceReachable (TransferService.CreateTransfer env db req).2

/-! ## Ledger replay -/

/-- Sum of the changes of the ledger rows of one account. -/
def ledgerSum (ledger : List PointLedger) (userID : Int) : Int :=
  ((ledger.filter (fun e => e.UserID == userID)).map (fun e => e.Change)).sum

/-- Replay of the ledger in insertion order, `seen` being the rows already
replayed: the `balance_after` of every row is the sum of the changes of its
account up to and including that row. -/
def replayFrom (seen : List PointLedger) : List PointLedger → Bool
  | [] => true
  | e :: rest =>
    decide (e.BalanceAfter = ledgerSum (seen ++ [e]) e.UserID) && replayFrom (seen ++ [e]) rest

/-- Ledger replay invariant: the balance of every account is the sum of the
changes of its ledger rows, and the whole ledger replays. -/
def DB.ledgerReplays (db : DB) : Prop :=
  (∀ u ∈ db.users, u.PointsBalance = ledgerSum db.ledger u.ID) ∧
  replayFrom [] db.ledger = true

instance (db : DB) : Decidable db.ledgerReplays := by
  unfold DB.ledgerReplays; infer_instance

/-- States reached from the freshly migrated database by creating accounts
through `UserService.Create` and submitting transfers, in any environment. -/
inductive Reachable : DB → Prop where
  | empty : Reachable DB.empty
  | createUser (fail : Bool) (now : Nat) (db : DB) (req : CreateUserRequest) :
      Reachable db → Reachable (UserService.Create fail now db req).2
  | createTransfer (env : Env) (db : DB) (req : CreateTransferRequest) :
      Reachable db → Reachable (TransferService.CreateTransfer env db req).2

/-! ## States of the tests (main_test.go) -/

/-- Helper `createTestUserWithBalance` of the tests: a direct `INSERT INTO users`
with the given balance; returns the new key. -/
def createTestUserWithBalance (db : DB) (firstName lastName : String) (balance : Int) (now : Nat) :
    Int × DB :=
  let id := nextRowID db.userSeq (db.users.map (fun u => u.ID))
  (id, { db with
          users := db.users ++ [
            { ID := id, FirstName := firstName, LastName := lastName, Email := "", Phone := "",
              AvatarURL := "", Bio := "", PointsBalance := balance, CreatedAt := now,
              UpdatedAt := now }],
          userSeq := id })

/-- Database of `TestTransferAmountValidation`: Bob Cat with 10000 points (id 1)
and Ann Doe with none (id 2). -/
def testDB2 : DB :=
  (createTestUserWithBalance (createTestUserWithBalance DB.empty "Bob" "Cat" 10000 0).2
    "Ann" "Doe" 0 0).2

/-- Database of `TestNoConsecutiveSameRecipient`: Aki Tan with 50000 points (id 1),
Ben Kim (id 2) and Cat Lin (id 3) with none. -/
def testDB3 : DB :=
  (createTestUserWithBalance (createTestUserWithBalance
    (createTestUserWithBalance DB.empty "Aki" "Tan" 50000 0).2 "Ben" "Kim" 0 0).2
    "Cat" "Lin" 0 0).2

/-- State after the scenario's first transfer: Bob (10000) sends 100 to Ann (0). -/
def testDB2_sent : DB :=
  (TransferService.CreateTransfer (Env.ok "k1" 1) testDB2 ⟨1, 2, 100, ""⟩).2

/-- State of `TestNoConsecutiveSameRecipient` after its first transfer, Aki to
Ben, 100 points. -/
def testDB3_AB : DB :=
  (TransferService.CreateTransfer (Env.ok "k1" 1) testDB3 ⟨1, 2, 100, ""⟩).2

/-- State of `TestNoConsecutiveSameRecipient` after its third transfer, Aki to
Cat, 100 points (the second, Aki to Ben again, is rejected and changes nothing). -/
def testDB3_ABC : DB :=
  (TransferService.CreateTransfer (Env.ok "k3" 3) testDB3_AB ⟨1, 3, 100, ""⟩).2

/-- State after Tom Lee and then Ann Doe registered through `UserService.Create`. -/
def registeredDB : DB :=
  (UserService.Create false 2 (UserService.Create false 1 DB.empty
    ⟨"Tom", "Lee", "test@example.com", "", "", ""⟩).2
    ⟨"Ann", "Doe", "", "", "", ""⟩).2

/-- Database in which account 1 holds 500 points it earned (one `earn` ledger
row) and account 2 holds none. -/
def earnedDB : DB :=
  { users := [
      { ID := 1, FirstName := "Aki", LastName := "Tan", Email := "", Phone := "", AvatarURL := "",
        Bio := "", PointsBalance := 500, CreatedAt := 0, UpdatedAt := 1 },
      { ID := 2, FirstName := "Ben", LastName := "Kim", Email := "", Phone := "", AvatarURL := "",
        Bio := "", PointsBalance := 0, CreatedAt := 0, UpdatedAt := 0 }]
    transfers := []
    ledger := [
      { ID := 1, UserID := 1, Change := 500, BalanceAfter := 500, EventType := "earn",
        TransferID := none, Reference := "", Metadata := "", CreatedAt := 1 }]
    userSeq := 2
    transferSeq := 0
    ledgerSeq := 1 }

-- results of calls are compared by `decide`
deriving instance DecidableEq for Except

/-! ## Basic facts about the repositories -/

theorem except_bind_eq_ok {ε α β : Type} (x : Except ε α) (f : α → Except ε β) (b : β) :
    (x >>= f) = .ok b ↔ ∃ a, x = .ok a ∧ f a = .ok b := by
  cases x <;> simp [bind, Except.bind]

theorem foldl_max_ge_init (ids : List Int) (seq : Int) : seq ≤ ids.foldl max seq := by
  induction ids generalizing seq with
  | nil => simp
  | cons i is ih => exact le_trans (le_max_left seq i) (ih (max seq i))

theorem foldl_max_ge_mem (ids : List Int) (seq : Int) : ∀ i ∈ ids, i ≤ ids.foldl max seq := by
  induction ids generalizing seq with
  | nil => simp
  | cons j js ih =>
    intro i hi
    rcases List.mem_cons.mp hi with rfl | hi
    · exact le_trans (le_max_right seq i) (foldl_max_ge_init js (max seq i))
    · exact ih (max seq j) i hi

theorem nextRowID_gt_mem (seq : Int) (ids : List Int) : ∀ i ∈ ids, i < nextRowID seq ids := by
  intro i hi
  have := foldl_max_ge_mem ids seq i hi
  unfold nextRowID; omega

theorem find?_map_of_id {f : User → User} (hf : ∀ u, (f u).ID = u.ID) (l : List User) (k : Int) :
    (l.map f).find? (fun u => u.ID == k) = (l.find? (fun u => u.ID == k)).map f := by
  induction l with
  | nil => rfl
  | cons u us ih =>
    simp only [List.map_cons, List.find?_cons, hf]
    cases h : (u.ID == k) <;> simp [ih]

theorem any_map_of_id {f : User → User} (hf : ∀ u, (f u).ID = u.ID) (l : List User) (k : Int) :
    (l.map f).any (fun u => u.ID == k) = l.any (fun u => u.ID == k) := by
  induction l with
  | nil => rfl
  | cons u us ih => simp [hf, ih]

theorem getByID_eq_ok {fail : Bool} {db : DB} {id : Int} {u : User} :
    UserRepository.GetByID fail db id = .ok u ↔
      fail = false ∧ db.users.find? (fun u => u.ID == id) = some u ∧
        inInt64 u.PointsBalance = true := by
  unfold UserRepository.GetByID
  cases fail
  · cases hfind : db.users.find? (fun u => u.ID == id) with
    | none => simp
    | some v =>
      by_cases hv : inInt64 v.PointsBalance = true
      · simp only [hv, if_true, Bool.false_eq_true, if_false, Except.ok.injEq, Option.some.injEq,
          true_and]
        constructor
        · rintro rfl; exact ⟨rfl, hv⟩
        · rintro ⟨rfl, _⟩; rfl
      · simp only [hv, Bool.false_eq_true, if_false, Option.some.injEq, true_and]
        constructor
        · intro h; cases h
        · rintro ⟨rfl, h⟩; exact absurd h hv
  · simp

theorem getBalance_eq_ok {fail : Bool} {tx : DB} {id b : Int} :
    UserRepository.GetBalance fail tx id = .ok b ↔
      fail = false ∧ tx.balance id = some b ∧ inInt64 b = true := by
  unfold UserRepository.GetBalance DB.balance
  cases fail
  · cases hfind : tx.users.find? (fun u => u.ID == id) with
    | none => simp
    | some v =>
      by_cases hv : inInt64 v.PointsBalance = true
      · simp only [hv, if_true, Bool.false_eq_true, if_false, Except.ok.injEq, Option.map_some',
          Option.some.injEq, true_and]
        constructor
        · rintro rfl; exact ⟨rfl, hv⟩
        · rintro ⟨rfl, _⟩; rfl
      · simp only [hv, Bool.false_eq_true, if_false, Option.map_some', Option.some.injEq,
          true_and]
        constructor
        · intro h; cases h
        · rintro ⟨rfl, h⟩; exact absurd h hv
  · simp

theorem updateBalance_eq_ok {fail : Bool} {now : Nat} {tx tx' : DB} {id amount : Int} :
    UserRepository.UpdateBalance fail now tx id amount = .ok tx' ↔
      fail = false ∧ tx' = { tx with
        users := tx.users.map (fun u => if u.ID == id then u.addPoints amount now else u) } := by
  unfold UserRepository.UpdateBalance
  cases fail
  · simp only [Bool.false_eq_true, if_false, Except.ok.injEq, true_and]; exact eq_comm
  · simp

theorem transferCreate_eq_ok {fail : Bool} {tx : DB} {t : Transfer} {r : DB × Transfer} :
    TransferRepository.Create fail tx t = .ok r ↔
      fail = false ∧ 0 < t.Amount ∧ t.Status ∈ transferStatuses ∧
      tx.transfers.any (fun x => x.IdemKey == t.IdemKey) = false ∧
      tx.hasUser t.FromUserID = true ∧ tx.hasUser t.ToUserID = true ∧
      r = ({ tx with
              transfers := tx.transfers ++
                [{ t with TransferID := nextRowID tx.transferSeq (tx.transfers.map (fun x => x.TransferID)),
                          FailReason := none }],
              transferSeq := nextRowID tx.transferSeq (tx.transfers.map (fun x => x.TransferID)) },
           { t with TransferID := nextRowID tx.transferSeq (tx.transfers.map (fun x => x.TransferID)) }) := by
  unfold TransferRepository.Create
  cases fail
  · by_cases h1 : t.Amount ≤ 0
    · simp only [h1, if_true, Bool.false_eq_true, if_false, true_and]
      constructor
      · intro h; cases h
      · rintro ⟨h, _⟩; omega
    · by_cases h2 : t.Status ∈ transferStatuses
      · cases h3 : tx.transfers.any (fun x => x.IdemKey == t.IdemKey)
        · cases h4 : tx.hasUser t.FromUserID
          · simp [h1, h2, h3, h4]
          · cases h5 : tx.hasUser t.ToUserID
            · simp [h1, h2, h3, h4, h5]
            · have h1' : 0 < t.Amount := by omega
              simp only [h1, h1', h2, h3, h4, h5, Bool.false_eq_true, if_false, not_true_eq_false,
                Bool.and_self, Bool.not_true, true_and, Except.ok.injEq]
              exact eq_comm
        · simp [h1, h2, h3]
      · simp [h1, h2]
  · simp

theorem ledgerCreate_eq_ok {fail : Bool} {tx : DB} {e : PointLedger} {tid : Int} {r : DB × PointLedger}
    (he : e.TransferID = some tid) :
    LedgerRepository.Create fail tx e = .ok r ↔
      fail = false ∧ e.EventType ∈ ledgerEventTypes ∧
      tx.hasUser e.UserID = true ∧ tx.hasTransfer tid = true ∧
      r = ({ tx with
              ledger := tx.ledger ++ [{ e with ID := nextRowID tx.ledgerSeq (tx.ledger.map (fun x => x.ID)) }],
              ledgerSeq := nextRowID tx.ledgerSeq (tx.ledger.map (fun x => x.ID)) },
           { e with ID := nextRowID tx.ledgerSeq (tx.ledger.map (fun x => x.ID)) }) := by
  unfold LedgerRepository.Create
  cases fail
  · by_cases h2 : e.EventType ∈ ledgerEventTypes
    · cases h4 : tx.hasUser e.UserID
      · simp [h2, h4]
      · cases h5 : tx.hasTransfer tid
        · simp [h2, h4, h5, he]
        · simp only [h2, h4, h5, he, Bool.false_eq_true, if_false, not_true_eq_false,
            Bool.and_self, Bool.not_true, true_and, Except.ok.injEq]
          exact eq_comm
    · simp [h2]
  · simp

theorem hasUser_movedUsers (env : Env) (db : DB) (req : CreateTransferRequest) (k : Int) :
    (movedUsers env db req).any (fun u => u.ID == k) = db.hasUser k := by
  unfold movedUsers DB.hasUser
  rw [any_map_of_id, any_map_of_id]
  · intro u; split <;> rfl
  · intro u; split <;> rfl

theorem inTx_eq_ok {env : Env} {tx tx' : DB} {req : CreateTransferRequest} {t : Transfer} :
    TransferService.CreateTransfer.inTx env tx req = .ok (tx', t) ↔
      ∃ fb tb,
        (env.fails .insertTransfer = false ∧ env.fails .updateFrom = false ∧
          env.fails .updateTo = false ∧ env.fails .balanceFrom = false ∧
          env.fails .balanceTo = false ∧ env.fails .ledgerOut = false ∧
          env.fails .ledgerIn = false) ∧
        0 < req.Amount ∧
        tx.transfers.any (fun x => x.IdemKey == env.idemKey) = false ∧
        tx.hasUser req.FromUserID = true ∧ tx.hasUser req.ToUserID = true ∧
        DB.balance { tx with users := movedUsers env tx req } req.FromUserID = some fb ∧
        inInt64 fb = true ∧
        DB.balance { tx with users := movedUsers env tx req } req.ToUserID = some tb ∧
        inInt64 tb = true ∧
        t = newTransfer env tx req ∧ tx' = afterTransfer env tx req fb tb := by
  constructor
  · intro h
    simp only [TransferService.CreateTransfer.inTx, except_bind_eq_ok] at h
    obtain ⟨a, h1, a1, h2, a2, h3, fb, h4, tb, h5, a5, h6, a6, h7, h8⟩ := h
    rw [transferCreate_eq_ok] at h1
    obtain ⟨f1, hamt, -, hkey, hfu, htu, rfl⟩ := h1
    rw [updateBalance_eq_ok] at h2
    obtain ⟨f2, rfl⟩ := h2
    rw [updateBalance_eq_ok] at h3
    obtain ⟨f3, rfl⟩ := h3
    rw [getBalance_eq_ok] at h4 h5
    obtain ⟨f4, hfb, hfb64⟩ := h4
    obtain ⟨f5, htb, htb64⟩ := h5
    rw [ledgerCreate_eq_ok rfl] at h6
    obtain ⟨f6, -, -, -, rfl⟩ := h6
    rw [ledgerCreate_eq_ok rfl] at h7
    obtain ⟨f7, -, -, -, rfl⟩ := h7
    simp only [pure, Except.pure, Except.ok.injEq, Prod.mk.injEq] at h8
    obtain ⟨rfl, rfl⟩ := h8
    refine ⟨fb, tb, ⟨f1, f2, f3, f4, f5, f6, f7⟩, hamt, hkey, hfu, htu, hfb, hfb64, htb, htb64,
      rfl, ?_⟩
    simp [afterTransfer, newTransfer, ledgerOutRow, ledgerInRow, movedUsers]
  · rintro ⟨fb, tb, ⟨f1, f2, f3, f4, f5, f6, f7⟩, hamt, hkey, hfu, htu, hfb, hfb64, htb, htb64,
      rfl, rfl⟩
    simp only [TransferService.CreateTransfer.inTx, except_bind_eq_ok]
    refine ⟨_, transferCreate_eq_ok.mpr ⟨f1, hamt, by simp [transferStatuses], hkey, hfu, htu, rfl⟩,
      _, updateBalance_eq_ok.mpr ⟨f2, rfl⟩, _, updateBalance_eq_ok.mpr ⟨f3, rfl⟩,
      fb, getBalance_eq_ok.mpr ⟨f4, hfb, hfb64⟩, tb, getBalance_eq_ok.mpr ⟨f5, htb, htb64⟩,
      _, (ledgerCreate_eq_ok rfl).mpr ⟨f6, by simp [ledgerEventTypes], ?_, ?_, rfl⟩,
      _, (ledgerCreate_eq_ok rfl).mpr ⟨f7, by simp [ledgerEventTypes], ?_, ?_, rfl⟩, ?_⟩
    · exact (hasUser_movedUsers env tx req _).trans hfu
    · simp [DB.hasTransfer]
    · exact (hasUser_movedUsers env tx req _).trans htu
    · simp [DB.hasTransfer]
    · simp [afterTransfer, newTransfer, ledgerOutRow, ledgerInRow, movedUsers, pure, Except.pure]

theorem createTransfer_eq_ok {env : Env} {db db' : DB} {req : CreateTransferRequest}
    {t : Transfer} :
    TransferService.CreateTransfer env db req = (.ok t, db') ↔
      0 < req.Amount ∧
      (∃ last, UserRepository.GetLastTransferRecipient (env.fails .lastRecipient) db
          req.FromUserID = .ok last ∧ ¬ (last ≠ 0 ∧ last = req.ToUserID)) ∧
      (∃ fu, UserRepository.GetByID (env.fails .getFrom) db req.FromUserID = .ok fu ∧
          req.Amount ≤ fu.PointsBalance) ∧
      (∃ tu, UserRepository.GetByID (env.fails .getTo) db req.ToUserID = .ok tu) ∧
      req.FromUserID ≠ req.ToUserID ∧
      env.fails .begin = false ∧ env.fails .commit = false ∧
      TransferService.CreateTransfer.inTx env db req = .ok (db', t) := by
  unfold TransferService.CreateTransfer
  by_cases hamt : req.Amount ≤ 0
  · rw [if_pos hamt]
    constructor
    · intro h; simp at h
    · rintro ⟨h, -⟩; omega
  have hamt' : 0 < req.Amount := by omega
  simp only [hamt, if_false, hamt', true_and]
  cases hlast : UserRepository.GetLastTransferRecipient (env.fails .lastRecipient) db
      req.FromUserID with
  | error e => simp
  | ok last =>
    simp only [Except.ok.injEq, exists_eq_left']
    by_cases hrep : last ≠ 0 ∧ last = req.ToUserID
    · rw [if_pos hrep]
      constructor
      · intro h; simp at h
      · rintro ⟨h, -⟩; exact absurd hrep h
    simp only [hrep, if_false, not_false_eq_true, true_and]
    cases hfrom : UserRepository.GetByID (env.fails .getFrom) db req.FromUserID with
    | error e => simp
    | ok fu =>
      simp only [Except.ok.injEq, exists_eq_left']
      cases hto : UserRepository.GetByID (env.fails .getTo) db req.ToUserID with
      | error e => simp
      | ok tu =>
        simp only [Except.ok.injEq, exists_eq', true_and]
        by_cases hself : req.FromUserID = req.ToUserID
        · simp [hself]
        simp only [hself, if_false, not_false_eq_true, true_and, ne_eq]
        by_cases hbal : fu.PointsBalance < req.Amount
        · rw [if_pos hbal]
          constructor
          · intro h; simp at h
          · rintro ⟨h, -⟩; omega
        have hbal' : req.Amount ≤ fu.PointsBalance := by omega
        simp only [hbal, if_false, hbal', true_and]
        cases hb : env.fails .begin
        · simp only [Bool.false_eq_true, if_false, true_and]
          cases htx : TransferService.CreateTransfer.inTx env db req with
          | error e => simp
          | ok r =>
            obtain ⟨tx, t'⟩ := r
            cases hc : env.fails .commit
            · simp only [Bool.false_eq_true, if_false, Prod.mk.injEq, Except.ok.injEq, true_and]
              tauto
            · simp
        · simp

theorem createTransfer_cases (env : Env) (db : DB) (req : CreateTransferRequest) :
    (∃ e, TransferService.CreateTransfer env db req = (.error e, db)) ∨
      (∃ t db', TransferService.CreateTransfer env db req = (.ok t, db')) := by
  unfold TransferService.CreateTransfer
  repeat' split
  all_goals simp

theorem createTransfer_of_fst_ok {env : Env} {db : DB} {req : CreateTransferRequest}
    {t : Transfer} (h : (TransferService.CreateTransfer env db req).1 = .ok t) :
    TransferService.CreateTransfer env db req =
      (.ok t, (TransferService.CreateTransfer env db req).2) := by
  rw [← h]

theorem addPoints_ID (id amount : Int) (now : Nat) (u : User) :
    (if u.ID == id then u.addPoints amount now else u).ID = u.ID := by
  split <;> rfl

theorem balance_map_addPoints (users : List User) (id amount : Int) (now : Nat) (k : Int) :
    ((users.map (fun u => if u.ID == id then u.addPoints amount now else u)).find?
        (fun u => u.ID == k)).map (fun u => u.PointsBalance) =
      ((users.find? (fun u => u.ID == k)).map (fun u => u.PointsBalance)).map
        (fun b => if k = id then b + amount else b) := by
  rw [find?_map_of_id (addPoints_ID id amount now)]
  cases hfind : users.find? (fun u => u.ID == k) with
  | none => rfl
  | some u =>
    have hk : u.ID = k := by simpa using List.find?_some hfind
    subst hk
    simp only [Option.map_some', Option.some.injEq]
    by_cases h : u.ID = id
    · rw [if_pos (by simpa using h), if_pos h]; rfl
    · rw [if_neg (by simpa using h), if_neg h]

theorem balance_movedUsers (env : Env) (db : DB) (req : CreateTransferRequest)
    (hne : req.FromUserID ≠ req.ToUserID) (k : Int) :
    DB.balance { db with users := movedUsers env db req } k =
      (db.balance k).map (fun b =>
        if k = req.FromUserID then b - req.Amount
        else if k = req.ToUserID then b + req.Amount else b) := by
  unfold DB.balance movedUsers
  simp only
  rw [balance_map_addPoints, balance_map_addPoints, Option.map_map]
  congr 1
  funext b
  simp only [Function.comp]
  by_cases h1 : k = req.FromUserID
  · have h2 : ¬ k = req.ToUserID := fun h => hne (h1.symm.trans h)
    rw [if_pos h1, if_neg h2, if_pos h1]; omega
  · rw [if_neg h1, if_neg h1]

theorem hasUser_of_find? {db : DB} {k : Int} {u : User}
    (h : db.users.find? (fun u => u.ID == k) = some u) : db.hasUser k = true := by
  unfold DB.hasUser
  rw [List.any_eq_true]
  have hp := List.find?_some h
  exact ⟨u, List.mem_of_find?_eq_some h, hp⟩

theorem balance_of_find? {db : DB} {k : Int} {u : User}
    (h : db.users.find? (fun u => u.ID == k) = some u) : db.balance k = some u.PointsBalance := by
  unfold DB.balance; rw [h]; rfl

theorem createTransfer_ok_inv {env : Env} {db : DB} {req : CreateTransferRequest} {t : Transfer}
    (h : (TransferService.CreateTransfer env db req).1 = .ok t) :
    ∃ bf bt, 0 < req.Amount ∧ req.FromUserID ≠ req.ToUserID ∧
      db.balance req.FromUserID = some bf ∧ db.balance req.ToUserID = some bt ∧
      req.Amount ≤ bf ∧ inInt64 (bf - req.Amount) = true ∧ inInt64 (bt + req.Amount) = true ∧
      db.transfers.any (fun x => x.IdemKey == env.idemKey) = false ∧
      t = newTransfer env db req ∧
      (TransferService.CreateTransfer env db req).2 =
        afterTransfer env db req (bf - req.Amount) (bt + req.Amount) := by
  have h' := createTransfer_of_fst_ok h
  rw [createTransfer_eq_ok] at h'
  obtain ⟨hamt, -, ⟨fu, hfu, hbal⟩, ⟨tu, htu⟩, hne, -, -, htx⟩ := h'
  rw [inTx_eq_ok] at htx
  obtain ⟨fb, tb, -, -, hkey, -, -, hfb, hfb64, htb, htb64, ht, hdb⟩ := htx
  rw [getByID_eq_ok] at hfu htu
  have hbf := balance_of_find? hfu.2.1
  have hbt := balance_of_find? htu.2.1
  rw [balance_movedUsers env db req hne, hbf] at hfb
  rw [balance_movedUsers env db req hne, hbt] at htb
  simp only [Option.map_some', if_true, Option.some.injEq] at hfb
  simp only [Option.map_some', if_true, Option.some.injEq, if_neg (Ne.symm hne)] at htb
  subst hfb htb
  exact ⟨_, _, hamt, hne, hbf, hbt, hbal, hfb64, htb64, hkey, ht, hdb⟩

theorem createTransfer_succeeds (env : Env) (db : DB) (req : CreateTransferRequest)
    {fu tu : User} (hreads : env.readsOK) (htx : env.txOK) (hamt : 0 < req.Amount)
    (hne : req.FromUserID ≠ req.ToUserID)
    (hlast : ∀ last, UserRepository.GetLastTransferRecipient false db req.FromUserID = .ok last →
      ¬ (last ≠ 0 ∧ last = req.ToUserID))
    (hfu : db.users.find? (fun u => u.ID == req.FromUserID) = some fu)
    (htu : db.users.find? (fun u => u.ID == req.ToUserID) = some tu)
    (hfu64 : inInt64 fu.PointsBalance = true) (htu64 : inInt64 tu.PointsBalance = true)
    (hbal : req.Amount ≤ fu.PointsBalance)
    (hkey : db.transfers.any (fun x => x.IdemKey == env.idemKey) = false)
    (hroom : tu.PointsBalance + req.Amount ≤ maxInt64) :
    TransferService.CreateTransfer env db req =
      (.ok (newTransfer env db req),
        afterTransfer env db req (fu.PointsBalance - req.Amount) (tu.PointsBalance + req.Amount)) := by
  obtain ⟨r1, r2, r3⟩ := hreads
  obtain ⟨t0, t1, t2, t3, t4, t5, t6, t7, t8⟩ := htx
  rw [createTransfer_eq_ok]
  refine ⟨hamt, ?_, ⟨fu, ?_, hbal⟩, ⟨tu, ?_⟩, hne, t0, t8, ?_⟩
  · rw [r1]
    cases hl : UserRepository.GetLastTransferRecipient false db req.FromUserID with
    | error e => simp [UserRepository.GetLastTransferRecipient] at hl; split at hl <;> simp at hl
    | ok last => exact ⟨last, rfl, hlast last hl⟩
  · rw [r2]; exact getByID_eq_ok.mpr ⟨rfl, hfu, hfu64⟩
  · rw [r3]; exact getByID_eq_ok.mpr ⟨rfl, htu, htu64⟩
  · rw [inTx_eq_ok]
    have h64 : ∀ x : Int, inInt64 x = true ↔ minInt64 ≤ x ∧ x ≤ maxInt64 := by
      intro x; simp [inInt64]
    rw [h64] at hfu64 htu64
    have hmin : minInt64 ≤ 0 := by decide
    refine ⟨_, _, ⟨t1, t2, t3, t4, t5, t6, t7⟩, hamt, hkey, hasUser_of_find? hfu,
      hasUser_of_find? htu, ?_, ?_, ?_, ?_, rfl, rfl⟩
    · rw [balance_movedUsers env db req hne, balance_of_find? hfu]; simp
    · rw [h64]; constructor <;> omega
    · rw [balance_movedUsers env db req hne, balance_of_find? htu]; simp [Ne.symm hne]
    · rw [h64]; constructor <;> omega

theorem getLastTransferRecipient_ok_fail {fail : Bool} {db : DB} {k last : Int}
    (h : UserRepository.GetLastTransferRecipient fail db k = .ok last) : fail = false := by
  cases fail
  · rfl
  · simp [UserRepository.GetLastTransferRecipient] at h

theorem createTransfer_ok_no_failure {env : Env} {db : DB} {req : CreateTransferRequest}
    {t : Transfer} (h : (TransferService.CreateTransfer env db req).1 = .ok t) (st : Step) :
    env.fails st = false := by
  have h' := createTransfer_of_fst_ok h
  rw [createTransfer_eq_ok] at h'
  obtain ⟨-, ⟨last, hlast, -⟩, ⟨fu, hfu, -⟩, ⟨tu, htu⟩, -, hb, hc, htx⟩ := h'
  rw [inTx_eq_ok] at htx
  obtain ⟨fb, tb, ⟨f1, f2, f3, f4, f5, f6, f7⟩, -⟩ := htx
  have f0 := getLastTransferRecipient_ok_fail hlast
  rw [getByID_eq_ok] at hfu htu
  cases st
  · exact f0
  · exact hfu.1
  · exact htu.1
  · exact hb
  · exact f1
  · exact f2
  · exact f3
  · exact f4
  · exact f5
  · exact f6
  · exact f7
  · exact hc

theorem lastByTransferID_eq_none {l : List Transfer} : lastByTransferID l = none ↔ l = [] := by
  cases l with
  | nil => simp [lastByTransferID]
  | cons t ts =>
    simp only [lastByTransferID, reduceCtorEq, iff_false]
    cases lastByTransferID ts with
    | none => simp
    | some m => simp only; split <;> simp

theorem lastByTransferID_some {l : List Transfer} {m : Transfer}
    (h : lastByTransferID l = some m) :
    m ∈ l ∧ ∀ x ∈ l, x.TransferID ≤ m.TransferID := by
  induction l generalizing m with
  | nil => simp [lastByTransferID] at h
  | cons t ts ih =>
    simp only [lastByTransferID] at h
    cases hts : lastByTransferID ts with
    | none =>
      rw [hts] at h
      simp only [Option.some.injEq] at h
      subst h
      rw [lastByTransferID_eq_none] at hts
      subst hts
      simp
    | some m' =>
      rw [hts] at h
      obtain ⟨hm', hmax⟩ := ih hts
      by_cases hlt : m'.TransferID < t.TransferID
      · simp only [hlt, if_true, Option.some.injEq] at h
        subst h
        refine ⟨List.mem_cons_self _ _, ?_⟩
        intro x hx
        rcases List.mem_cons.mp hx with rfl | hx
        · exact le_refl _
        · exact le_trans (hmax x hx) (le_of_lt hlt)
      · simp only [hlt, if_false, Option.some.injEq] at h
        subst h
        refine ⟨List.mem_cons_of_mem _ hm', ?_⟩
        intro x hx
        rcases List.mem_cons.mp hx with rfl | hx
        · omega
        · exact hmax x hx

theorem mem_completedFrom {db : DB} {A : Int} {x : Transfer} :
    x ∈ db.transfers.filter (fun t => t.FromUserID == A && t.Status == "completed") ↔
      x ∈ db.transfers ∧ x.FromUserID = A ∧ x.Status = "completed" := by
  simp [List.mem_filter]

theorem getLastTransferRecipient_cases (db : DB) (A : Int) :
    (UserRepository.GetLastTransferRecipient false db A = .ok 0 ∧
        ∀ x ∈ db.transfers, x.FromUserID = A → x.Status ≠ "completed") ∨
      ∃ m, UserRepository.GetLastTransferRecipient false db A = .ok m.ToUserID ∧
        m ∈ db.transfers ∧ m.FromUserID = A ∧ m.Status = "completed" ∧
        ∀ x ∈ db.transfers, x.FromUserID = A → x.Status = "completed" →
          x.TransferID ≤ m.TransferID := by
  unfold UserRepository.GetLastTransferRecipient
  cases h : lastByTransferID
      (db.transfers.filter (fun t => t.FromUserID == A && t.Status == "completed")) with
  | none =>
    left
    refine ⟨by simp, ?_⟩
    rw [lastByTransferID_eq_none] at h
    intro x hx hA hst
    have : x ∈ db.transfers.filter (fun t => t.FromUserID == A && t.Status == "completed") :=
      mem_completedFrom.mpr ⟨hx, hA, hst⟩
    rw [h] at this
    cases this
  | some m =>
    right
    obtain ⟨hm, hmax⟩ := lastByTransferID_some h
    rw [mem_completedFrom] at hm
    refine ⟨m, by simp, hm.1, hm.2.1, hm.2.2, ?_⟩
    intro x hx hA hst
    exact hmax x (mem_completedFrom.mpr ⟨hx, hA, hst⟩)

theorem transfer_eq_of_id {db : DB} (hWF : db.WF) {x y : Transfer} (hx : x ∈ db.transfers)
    (hy : y ∈ db.transfers) (h : x.TransferID = y.TransferID) : x = y :=
  List.inj_on_of_nodup_map hWF.2.2.2 hx hy h

theorem getLastTransferRecipient_of_max {db : DB} (hWF : db.WF) {A : Int} {t : Transfer}
    (ht : t ∈ db.transfers) (hfrom : t.FromUserID = A) (hst : t.Status = "completed")
    (hmax : ∀ x ∈ db.transfers, x.FromUserID = A → x.Status = "completed" →
      x.TransferID ≤ t.TransferID) :
    UserRepository.GetLastTransferRecipient false db A = .ok t.ToUserID := by
  rcases getLastTransferRecipient_cases db A with ⟨-, hnone⟩ | ⟨m, hm, hmem, hmA, hmst, hmmax⟩
  · exact absurd hst (hnone t ht hfrom)
  · have h1 := hmax m hmem hmA hmst
    have h2 := hmmax t ht hfrom hst
    have : m = t := transfer_eq_of_id hWF hmem ht (le_antisymm h1 h2)
    rw [hm, this]

theorem pos_of_hasUser {db : DB} (hWF : db.WF) {k : Int} (h : db.hasUser k = true) : 0 < k := by
  unfold DB.hasUser at h
  rw [List.any_eq_true] at h
  obtain ⟨u, hu, hk⟩ := h
  have := hWF.2.1 u hu
  have hk' : u.ID = k := by simpa using hk
  omega

theorem find?_of_hasUser {db : DB} {k : Int} (h : db.hasUser k = true) :
    ∃ u, db.users.find? (fun u => u.ID == k) = some u := by
  unfold DB.hasUser at h
  cases hf : db.users.find? (fun u => u.ID == k) with
  | none =>
    rw [List.find?_eq_none] at hf
    rw [List.any_eq_true] at h
    obtain ⟨u, hu, hk⟩ := h
    exact absurd hk (hf u hu)
  | some u => exact ⟨u, rfl⟩

theorem find?_none_of_not_hasUser {db : DB} {k : Int} (h : db.hasUser k = false) :
    db.users.find? (fun u => u.ID == k) = none := by
  unfold DB.hasUser at h
  rw [List.find?_eq_none]
  intro u hu hk
  have : db.users.any (fun u => u.ID == k) = true := List.any_eq_true.mpr ⟨u, hu, hk⟩
  rw [h] at this
  cases this

theorem except_bind_eq_error {ε α β : Type} (x : Except ε α) (f : α → Except ε β) (e : ε) :
    (x >>= f) = .error e ↔ x = .error e ∨ ∃ a, x = .ok a ∧ f a = .error e := by
  cases x <;> simp [bind, Except.bind]

theorem transferCreate_error_mem {fail : Bool} {tx : DB} {t : Transfer} {e : String}
    (h : TransferRepository.Create fail tx t = .error e) : e ∈ dbErrors := by
  unfold TransferRepository.Create at h
  split_ifs at h <;> simp at h <;> subst h <;> simp [dbErrors]

theorem ledgerCreate_error_mem {fail : Bool} {tx : DB} {l : PointLedger} {e : String}
    (h : LedgerRepository.Create fail tx l = .error e) : e ∈ dbErrors := by
  unfold LedgerRepository.Create at h
  split_ifs at h <;> simp at h <;> subst h <;> simp [dbErrors]

theorem updateBalance_error_mem {fail : Bool} {now : Nat} {tx : DB} {id amount : Int}
    {e : String} (h : UserRepository.UpdateBalance fail now tx id amount = .error e) :
    e ∈ dbErrors := by
  unfold UserRepository.UpdateBalance at h
  split_ifs at h
  simp at h; subst h; simp [dbErrors]

theorem getBalance_error_mem {fail : Bool} {tx : DB} {id : Int} {e : String}
    (h : UserRepository.GetBalance fail tx id = .error e) : e ∈ dbErrors := by
  unfold UserRepository.GetBalance at h
  split_ifs at h
  · simp at h; subst h; simp [dbErrors]
  · split at h
    · simp at h; subst h; simp [dbErrors]
    · split_ifs at h; simp at h; subst h; simp [dbErrors]

theorem inTx_error_mem {env : Env} {tx : DB} {req : CreateTransferRequest} {e : String}
    (h : TransferService.CreateTransfer.inTx env tx req = .error e) : e ∈ dbErrors := by
  simp only [TransferService.CreateTransfer.inTx, except_bind_eq_error] at h
  obtain h1 | ⟨a, -, h2 | ⟨a1, -, h3 | ⟨a2, -, h4 | ⟨fb, -, h5 | ⟨tb, -, h6 | ⟨a5, -, h7 |
    ⟨a6, -, h8⟩⟩⟩⟩⟩⟩⟩ := h
  · exact transferCreate_error_mem h1
  · exact updateBalance_error_mem h2
  · exact updateBalance_error_mem h3
  · exact getBalance_error_mem h4
  · exact getBalance_error_mem h5
  · exact ledgerCreate_error_mem h6
  · exact ledgerCreate_error_mem h7
  · simp [pure, Except.pure] at h8

theorem createTransfer_after_checks (env : Env) (db : DB) (req : CreateTransferRequest)
    {fu tu : User} {last : Int} (hreads : env.readsOK) (hamt : 0 < req.Amount)
    (hlast : UserRepository.GetLastTransferRecipient false db req.FromUserID = .ok last)
    (hrep : ¬ (last ≠ 0 ∧ last = req.ToUserID))
    (hfu : UserRepository.GetByID false db req.FromUserID = .ok fu)
    (htu : UserRepository.GetByID false db req.ToUserID = .ok tu)
    (hne : req.FromUserID ≠ req.ToUserID) :
    TransferService.CreateTransfer env db req =
      if fu.PointsBalance < req.Amount then (.error "insufficient balance", db)
      else if env.fails .begin then (.error storageError, db)
      else match TransferService.CreateTransfer.inTx env db req with
        | .error err => (.error err, db)
        | .ok (tx, transfer) =>
          if env.fails .commit then (.error storageError, db) else (.ok transfer, tx) := by
  obtain ⟨r1, r2, r3⟩ := hreads
  have hamt' : ¬ req.Amount ≤ 0 := by omega
  unfold TransferService.CreateTransfer
  rw [if_neg hamt', r1, r2, r3, hlast]
  simp only [hrep, if_false, hfu, htu, hne]

theorem createTransfer_error_after_checks (env : Env) (db : DB) (req : CreateTransferRequest)
    {fu tu : User} {last : Int} {e : String} (hreads : env.readsOK) (hamt : 0 < req.Amount)
    (hlast : UserRepository.GetLastTransferRecipient false db req.FromUserID = .ok last)
    (hrep : ¬ (last ≠ 0 ∧ last = req.ToUserID))
    (hfu : UserRepository.GetByID false db req.FromUserID = .ok fu)
    (htu : UserRepository.GetByID false db req.ToUserID = .ok tu)
    (hne : req.FromUserID ≠ req.ToUserID) (hbal : req.Amount ≤ fu.PointsBalance)
    (he : (TransferService.CreateTransfer env db req).1 = .error e) : e ∈ dbErrors := by
  rw [createTransfer_after_checks env db req hreads hamt hlast hrep hfu htu hne,
    if_neg (by omega)] at he
  by_cases hb : env.fails .begin = true
  · rw [if_pos hb] at he
    simp at he; subst he; simp [dbErrors]
  · rw [if_neg hb] at he
    cases htx : TransferService.CreateTransfer.inTx env db req with
    | error err =>
      rw [htx] at he
      simp at he
      subst he
      exact inTx_error_mem htx
    | ok r =>
      rw [htx] at he
      by_cases hc : env.fails .commit = true
      · simp [hc] at he; subst he; simp [dbErrors]
      · simp [hc] at he

theorem find?_of_balance {db : DB} {k b : Int} (h : db.balance k = some b) :
    ∃ u, db.users.find? (fun u => u.ID == k) = some u ∧ u.PointsBalance = b := by
  unfold DB.balance at h
  cases hf : db.users.find? (fun u => u.ID == k) with
  | none => rw [hf] at h; cases h
  | some u =>
    rw [hf] at h
    simp only [Option.map_some', Option.some.injEq] at h
    exact ⟨u, rfl, h⟩

theorem not_repeated_of_not_last {db : DB} {A B : Int}
    (hnot : ∀ t ∈ db.transfers, t.FromUserID = A → t.Status = "completed" →
      (∀ x ∈ db.transfers, x.FromUserID = A → x.Status = "completed" →
        x.TransferID ≤ t.TransferID) → t.ToUserID ≠ B) :
    ∃ last, UserRepository.GetLastTransferRecipient false db A = .ok last ∧
      ¬ (last ≠ 0 ∧ last = B) := by
  rcases getLastTransferRecipient_cases db A with ⟨h0, -⟩ | ⟨m, hm, hmem, hmA, hmst, hmmax⟩
  · exact ⟨0, h0, by simp⟩
  · exact ⟨_, hm, fun h => hnot m hmem hmA hmst hmmax h.2⟩

theorem balance_of_mem {db : DB} (hWF : db.WF) {u : User} (hu : u ∈ db.users) :
    db.balance u.ID = some u.PointsBalance := by
  have hex : db.hasUser u.ID = true := by
    unfold DB.hasUser; exact List.any_eq_true.mpr ⟨u, hu, by simp⟩
  obtain ⟨v, hv⟩ := find?_of_hasUser hex
  have hid : v.ID = u.ID := by simpa using List.find?_some hv
  have : v = u := List.inj_on_of_nodup_map hWF.1 (List.mem_of_find?_eq_some hv) hu hid
  rw [balance_of_find? hv, this]

theorem mem_movedUsers {env : Env} {db : DB} {req : CreateTransferRequest} {u : User}
    (h : u ∈ movedUsers env db req) :
    ∃ u0 ∈ db.users,
      u.ID = u0.ID ∧
      u.PointsBalance =
        if u0.ID = req.FromUserID then
          (if u0.ID = req.ToUserID then u0.PointsBalance + -req.Amount + req.Amount
            else u0.PointsBalance + -req.Amount)
        else if u0.ID = req.ToUserID then u0.PointsBalance + req.Amount
        else u0.PointsBalance := by
  unfold movedUsers at h
  simp only [List.mem_map] at h
  obtain ⟨u1, ⟨u0, hu0, rfl⟩, rfl⟩ := h
  refine ⟨u0, hu0, ?_, ?_⟩
  · rw [addPoints_ID, addPoints_ID]
  · by_cases h1 : u0.ID = req.FromUserID <;> by_cases h2 : u0.ID = req.ToUserID <;>
      simp [h1, h2, User.addPoints]
    all_goals simp_all [User.addPoints]

theorem ledgerSum_append (l m : List PointLedger) (k : Int) :
    ledgerSum (l ++ m) k = ledgerSum l k + ledgerSum m k := by
  simp [ledgerSum, List.filter_append, List.map_append, List.sum_append]

theorem ledgerSum_singleton (e : PointLedger) (k : Int) :
    ledgerSum [e] k = if e.UserID = k then e.Change else 0 := by
  by_cases h : e.UserID = k <;> simp [ledgerSum, List.filter_cons, h]

theorem replayFrom_append (seen l m : List PointLedger) :
    replayFrom seen (l ++ m) = (replayFrom seen l && replayFrom (seen ++ l) m) := by
  induction l generalizing seen with
  | nil => simp [replayFrom]
  | cons e es ih =>
    rw [List.cons_append]
    simp only [replayFrom]
    rw [ih, Bool.and_assoc, List.append_assoc, List.singleton_append]

theorem createTransfer_ledgerReplays {env : Env} {db : DB} {req : CreateTransferRequest}
    (hinv : db.ledgerReplays) : (TransferService.CreateTransfer env db req).2.ledgerReplays := by
  rcases createTransfer_cases env db req with ⟨e, he⟩ | ⟨t, db', hok⟩
  · rw [he]; exact hinv
  have hfst : (TransferService.CreateTransfer env db req).1 = .ok t := by rw [hok]
  obtain ⟨bf, bt, hamt, hne, hbf, hbt, hbal, -, -, -, -, hdb⟩ := createTransfer_ok_inv hfst
  obtain ⟨hsum, hreplay⟩ := hinv
  obtain ⟨fu, hfu, rfl⟩ := find?_of_balance hbf
  obtain ⟨tu, htu, rfl⟩ := find?_of_balance hbt
  have hfid : fu.ID = req.FromUserID := by simpa using List.find?_some hfu
  have htid : tu.ID = req.ToUserID := by simpa using List.find?_some htu
  have hfs := hsum fu (List.mem_of_find?_eq_some hfu)
  have hts := hsum tu (List.mem_of_find?_eq_some htu)
  rw [hfid] at hfs
  rw [htid] at hts
  have hne' : ¬ req.ToUserID = req.FromUserID := fun h => hne h.symm
  rw [hdb]
  constructor
  · intro u hu
    obtain ⟨u0, hu0, hid, hbalance⟩ := mem_movedUsers (show u ∈ movedUsers env db req from hu)
    have h0 := hsum u0 hu0
    show u.PointsBalance = ledgerSum (db.ledger ++ _) u.ID
    rw [hbalance, hid, ledgerSum_append, ← h0]
    have hcons : ∀ a b : PointLedger, ledgerSum [a, b] u0.ID =
        ledgerSum [a] u0.ID + ledgerSum [b] u0.ID := fun a b => ledgerSum_append [a] [b] u0.ID
    rw [hcons, ledgerSum_singleton, ledgerSum_singleton]
    simp only [ledgerOutRow, ledgerInRow]
    split_ifs <;> omega
  · show replayFrom [] (db.ledger ++ [_, _]) = true
    rw [replayFrom_append, hreplay]
    simp only [Bool.true_and, replayFrom, List.nil_append, Bool.and_true, Bool.and_eq_true,
      decide_eq_true_eq, List.append_assoc, List.singleton_append]
    constructor
    · rw [ledgerSum_append, ledgerSum_singleton]
      simp only [ledgerOutRow, if_true]
      omega
    · rw [ledgerSum_append]
      have hcons : ∀ (a b : PointLedger) (k : Int), ledgerSum [a, b] k =
          ledgerSum [a] k + ledgerSum [b] k := fun a b k => ledgerSum_append [a] [b] k
      rw [hcons, ledgerSum_singleton, ledgerSum_singleton]
      simp only [ledgerOutRow, ledgerInRow, if_true, if_neg hne]
      omega

theorem ledgerSum_eq_zero {l : List PointLedger} {k : Int} (h : ∀ e ∈ l, e.UserID ≠ k) :
    ledgerSum l k = 0 := by
  unfold ledgerSum
  rw [List.filter_eq_nil_iff.mpr]
  · rfl
  · intro e he
    simpa using h e he

theorem userCreate_cases (fail : Bool) (now : Nat) (db : DB) (req : CreateUserRequest) :
    (UserService.Create fail now db req).2 = db ∨
      ∃ row : User, row.PointsBalance = 0 ∧
        row.ID = nextRowID db.userSeq (db.users.map (fun u => u.ID)) ∧
        (UserService.Create fail now db req).2 =
          { db with users := db.users ++ [row], userSeq := row.ID } := by
  unfold UserService.Create
  split_ifs
  · exact Or.inl rfl
  · exact Or.inl rfl
  · exact Or.inl rfl
  · cases fail
    · right
      exact ⟨_, rfl, rfl, rfl⟩
    · exact Or.inl rfl

theorem reachable_ledger (db : DB) (h : Reachable db) :
    db.ledgerReplays ∧ ∀ e ∈ db.ledger, db.hasUser e.UserID = true := by
  induction h with
  | empty =>
    refine ⟨⟨?_, rfl⟩, ?_⟩
    · intro u hu; cases hu
    · intro e he; cases he
  | createUser fail now db req _ ih =>
    obtain ⟨⟨hsum, hreplay⟩, hfk⟩ := ih
    rcases userCreate_cases fail now db req with heq | ⟨row, hrow0, hrowid, heq⟩
    · rw [heq]; exact ⟨⟨hsum, hreplay⟩, hfk⟩
    · rw [heq]
      refine ⟨⟨?_, hreplay⟩, ?_⟩
      · intro u hu
        rcases List.mem_append.mp hu with hu | hu
        · exact hsum u hu
        · rw [List.mem_singleton] at hu
          subst hu
          rw [hrow0]
          symm
          apply ledgerSum_eq_zero
          intro e he hid
          have hex := hfk e he
          unfold DB.hasUser at hex
          rw [List.any_eq_true] at hex
          obtain ⟨v, hv, hvid⟩ := hex
          have hlt := nextRowID_gt_mem db.userSeq (db.users.map (fun u => u.ID)) v.ID
            (List.mem_map_of_mem _ hv)
          have hvid' : v.ID = e.UserID := by simpa using hvid
          omega
      · intro e he
        have hex := hfk e he
        unfold DB.hasUser at hex ⊢
        simp only [List.any_append, hex, Bool.true_or]
  | createTransfer env db req _ ih =>
    refine ⟨createTransfer_ledgerReplays ih.1, ?_⟩
    obtain ⟨-, hfk⟩ := ih
    rcases createTransfer_cases env db req with ⟨e, he⟩ | ⟨t, db', hok⟩
    · rw [he]; exact hfk
    · have hfst : (TransferService.CreateTransfer env db req).1 = .ok t := by rw [hok]
      obtain ⟨bf, bt, -, -, hbf, hbt, -, -, -, -, -, hdb⟩ := createTransfer_ok_inv hfst
      obtain ⟨fu, hfu, -⟩ := find?_of_balance hbf
      obtain ⟨tu, htu, -⟩ := find?_of_balance hbt
      rw [hdb]
      intro e he
      show (movedUsers env db req).any (fun u => u.ID == e.UserID) = true
      rw [hasUser_movedUsers]
      have he' : e ∈ db.ledger ++ [ledgerOutRow env db req (bf - req.Amount),
          ledgerInRow env db req (bf - req.Amount) (bt + req.Amount)] := he
      rcases List.mem_append.mp he' with he | he
      · exact hfk e he
      · simp only [List.mem_cons, List.mem_singleton, List.not_mem_nil, or_false] at he
        rcases he with rfl | rfl
        · exact hasUser_of_find? hfu
        · exact hasUser_of_find? htu

theorem movedUsers_ids (env : Env) (db : DB) (req : CreateTransferRequest) :
    (movedUsers env db req).map (fun u => u.ID) = db.users.map (fun u => u.ID) := by
  unfold movedUsers
  rw [List.map_map, List.map_map]
  apply List.map_congr_left
  intro u _
  show (if _ then _ else _ : User).ID = u.ID
  rw [addPoints_ID, addPoints_ID]

/-- The constraints of `DB.WF` hold again after `CreateTransfer`, so they hold in
every state the transfer engine produces from a state that has them. -/
theorem createTransfer_preserves_WF (env : Env) (db : DB) (req : CreateTransferRequest)
    (hWF : db.WF) : (TransferService.CreateTransfer env db req).2.WF := by
  rcases createTransfer_cases env db req with ⟨e, he⟩ | ⟨t, db', hok⟩
  · rw [he]; exact hWF
  have hfst : (TransferService.CreateTransfer env db req).1 = .ok t := by rw [hok]
  obtain ⟨bf, bt, hamt, hne, hbf, hbt, hbal, hf64, ht64, -, -, hdb⟩ := createTransfer_ok_inv hfst
  rw [hdb]
  refine ⟨?_, ?_, ?_, ?_⟩
  · show ((movedUsers env db req).map (fun u => u.ID)).Nodup
    rw [movedUsers_ids]; exact hWF.1
  · intro u hu
    obtain ⟨u0, hu0, hid, -⟩ := mem_movedUsers (show u ∈ movedUsers env db req from hu)
    rw [hid]; exact hWF.2.1 u0 hu0
  · intro u hu
    obtain ⟨u0, hu0, -, hbalance⟩ := mem_movedUsers (show u ∈ movedUsers env db req from hu)
    have hb0 := balance_of_mem hWF hu0
    have h0 := hWF.2.2.1 u0 hu0
    rw [hbalance]
    by_cases h1 : u0.ID = req.FromUserID
    · have h2 : ¬ u0.ID = req.ToUserID := fun h => hne (h1.symm.trans h)
      rw [if_pos h1, if_neg h2]
      rw [h1, hbf] at hb0
      simp only [Option.some.injEq] at hb0
      rw [← hb0, ← sub_eq_add_neg]; exact hf64
    · rw [if_neg h1]
      by_cases h2 : u0.ID = req.ToUserID
      · rw [if_pos h2]
        rw [h2, hbt] at hb0
        simp only [Option.some.injEq] at hb0
        rw [← hb0]; exact ht64
      · rw [if_neg h2]; exact h0
  · show ((db.transfers ++ [newTransfer env db req]).map (fun t => t.TransferID)).Nodup
    rw [List.map_append, List.map_singleton]
    apply List.Nodup.append hWF.2.2.2 (List.nodup_singleton _)
    intro x hx hx'
    rw [List.mem_singleton] at hx'
    have := nextRowID_gt_mem db.transferSeq (db.transfers.map (fun r => r.TransferID)) x hx
    simp only [newTransfer] at hx'
    omega

/-! ## Properties of the transfer engine -/

/-- C1: a successful `CreateTransfer` leaves the source with its old balance minus
the amount and the destination with its old balance plus the amount, changes no
other account balance, and keeps the sum of the two balances. -/
theorem createTransfer_moves_points (env : Env) (db : DB) (req : CreateTransferRequest)
    (t : Transfer) (h : (TransferService.CreateTransfer env db req).1 = .ok t) :
    ∃ bf bt : Int,
      db.balance req.FromUserID = some bf ∧ db.balance req.ToUserID = some bt ∧
      (TransferService.CreateTransfer env db req).2.balance req.FromUserID =
        some (bf - req.Amount) ∧
      (TransferService.CreateTransfer env db req).2.balance req.ToUserID =
        some (bt + req.Amount) ∧
      (∀ id, id ≠ req.FromUserID → id ≠ req.ToUserID →
        (TransferService.CreateTransfer env db req).2.balance id = db.balance id) ∧
      (bf - req.Amount) + (bt + req.Amount) = bf + bt := by
  obtain ⟨bf, bt, -, hne, hbf, hbt, -, -, -, -, -, hdb⟩ := createTransfer_ok_inv h
  have hbal : ∀ k, (TransferService.CreateTransfer env db req).2.balance k =
      DB.balance { db with users := movedUsers env db req } k := by
    intro k; rw [hdb]; rfl
  refine ⟨bf, bt, hbf, hbt, ?_, ?_, ?_, by ring⟩
  · rw [hbal, balance_movedUsers env db req hne, hbf]; simp
  · rw [hbal, balance_movedUsers env db req hne, hbt]; simp [Ne.symm hne]
  · intro id h1 h2
    rw [hbal, balance_movedUsers env db req hne]
    cases db.balance id <;> simp [h1, h2]

/-- Witness for C1: the test's transfer of 150 points from Bob (10000) to Ann (0). -/
theorem createTransfer_moves_points_witness :
    (TransferService.CreateTransfer (Env.ok "k1" 1) testDB2 ⟨1, 2, 150, ""⟩).1 =
        .ok (newTransfer (Env.ok "k1" 1) testDB2 ⟨1, 2, 150, ""⟩) ∧
      ∃ bf bt : Int,
        testDB2.balance 1 = some bf ∧ testDB2.balance 2 = some bt ∧
        (TransferService.CreateTransfer (Env.ok "k1" 1) testDB2 ⟨1, 2, 150, ""⟩).2.balance 1 =
          some (bf - 150) ∧
        (TransferService.CreateTransfer (Env.ok "k1" 1) testDB2 ⟨1, 2, 150, ""⟩).2.balance 2 =
          some (bt + 150) ∧
        (∀ id, id ≠ 1 → id ≠ 2 →
          (TransferService.CreateTransfer (Env.ok "k1" 1) testDB2 ⟨1, 2, 150, ""⟩).2.balance id =
            testDB2.balance id) ∧
        (bf - 150) + (bt + 150) = bf + bt :=
  ⟨by decide,
    createTransfer_moves_points (Env.ok "k1" 1) testDB2 ⟨1, 2, 150, ""⟩
      (newTransfer (Env.ok "k1" 1) testDB2 ⟨1, 2, 150, ""⟩) (by decide)⟩

/-- C2: when `CreateTransfer` returns an error the database is exactly the one
before the call (users and balances, transfer rows, ledger rows, sequences); and
a storage failure at any step, from the first read to the commit, makes the call
return an error. -/
theorem createTransfer_error_rolls_back (env : Env) (db : DB) (req : CreateTransferRequest) :
    (∀ e, (TransferService.CreateTransfer env db req).1 = .error e →
      (TransferService.CreateTransfer env db req).2 = db) ∧
    (∀ st, env.fails st = true →
      ∃ e, TransferService.CreateTransfer env db req = (.error e, db)) := by
  constructor
  · intro e h
    rcases createTransfer_cases env db req with ⟨e', he⟩ | ⟨t, db', hok⟩
    · rw [he]
    · rw [hok] at h; simp at h
  · intro st hst
    rcases createTransfer_cases env db req with ⟨e', he⟩ | ⟨t, db', hok⟩
    · exact ⟨e', he⟩
    · have hfst : (TransferService.CreateTransfer env db req).1 = .ok t := by rw [hok]
      have := createTransfer_ok_no_failure hfst st
      rw [hst] at this; cases this

/-- Witness for C2: the second ledger insert fails after the transfer row, both
balance updates and the first ledger row were written in the transaction; the
database is the one before the call. -/
theorem createTransfer_error_rolls_back_witness :
    (TransferService.CreateTransfer (Env.failingAt .ledgerIn "k1" 1) testDB2
        ⟨1, 2, 150, ""⟩).1 = .error storageError ∧
      (TransferService.CreateTransfer (Env.failingAt .ledgerIn "k1" 1) testDB2
        ⟨1, 2, 150, ""⟩).2 = testDB2 :=
  ⟨by decide,
    (createTransfer_error_rolls_back (Env.failingAt .ledgerIn "k1" 1) testDB2
      ⟨1, 2, 150, ""⟩).1 storageError (by decide)⟩

/-- C3: a request whose amount is zero or negative fails with "amount must be
greater than 0", whatever the accounts, the history and the environment, and the
database is untouched. -/
theorem createTransfer_rejects_nonpositive_amount (env : Env) (db : DB)
    (req : CreateTransferRequest) (h : req.Amount ≤ 0) :
    TransferService.CreateTransfer env db req = (.error "amount must be greater than 0", db) := by
  unfold TransferService.CreateTransfer
  rw [if_pos h]

/-- Witness for C3: the test's amount of -100 between existing accounts. -/
theorem createTransfer_rejects_nonpositive_amount_witness :
    (-100 : Int) ≤ 0 ∧
      TransferService.CreateTransfer (Env.ok "k1" 1) testDB2 ⟨1, 2, -100, ""⟩ =
        (.error "amount must be greater than 0", testDB2) :=
  ⟨by decide,
    createTransfer_rejects_nonpositive_amount (Env.ok "k1" 1) testDB2 ⟨1, 2, -100, ""⟩
      (by decide)⟩

/-- C4 (the claim as stated fails): for an account that does not exist, a
self-transfer of a positive amount is rejected with "from_user not found", not
with the self-transfer error, because the existence checks come first. -/
theorem createTransfer_self_transfer_counterexample :
    (0 : Int) < 100 ∧
      (TransferService.CreateTransfer (Env.ok "k1" 1) testDB2 ⟨7, 7, 100, ""⟩).1 =
        .error "from_user not found" ∧
      (TransferService.CreateTransfer (Env.ok "k1" 1) testDB2 ⟨7, 7, 100, ""⟩).1 ≠
        .error "cannot transfer to yourself" := by
  decide

/-- C4 (amended): with a positive amount and source equal to destination, when
the reads succeed and the account has no completed transfer to itself on record,
`CreateTransfer` fails and leaves the database untouched; the error is "cannot
transfer to yourself" when the account exists and "from_user not found" when it
does not, the self-transfer check coming after the two existence checks. -/
theorem createTransfer_self_transfer (env : Env) (db : DB) (req : CreateTransferRequest)
    (hamt : 0 < req.Amount) (hself : req.FromUserID = req.ToUserID)
    (hreads : env.readsOK) (hWF : db.WF)
    (hnoself : ∀ t ∈ db.transfers, t.FromUserID = req.FromUserID → t.Status = "completed" →
      t.ToUserID ≠ req.FromUserID) :
    TransferService.CreateTransfer env db req =
      (.error (if db.hasUser req.FromUserID then "cannot transfer to yourself"
        else "from_user not found"), db) := by
  obtain ⟨r1, r2, r3⟩ := hreads
  have hamt' : ¬ req.Amount ≤ 0 := by omega
  unfold TransferService.CreateTransfer
  rw [if_neg hamt', r1, r2, r3]
  have hlast : ∃ last, UserRepository.GetLastTransferRecipient false db req.FromUserID =
      .ok last ∧ ¬ (last ≠ 0 ∧ last = req.ToUserID) := by
    rcases getLastTransferRecipient_cases db req.FromUserID with ⟨h0, -⟩ | ⟨m, hm, hmem, hmA, hmst, -⟩
    · exact ⟨0, h0, by simp⟩
    · refine ⟨_, hm, ?_⟩
      rintro ⟨-, h⟩
      exact hnoself m hmem hmA hmst (h.trans hself.symm)
  obtain ⟨last, hl, hrep⟩ := hlast
  rw [hl]
  simp only [hrep, if_false]
  cases hu : db.hasUser req.FromUserID
  · have hfind := find?_none_of_not_hasUser hu
    simp [UserRepository.GetByID, hfind]
  · obtain ⟨u, hfind⟩ := find?_of_hasUser hu
    have h64 := hWF.2.2.1 u (List.mem_of_find?_eq_some hfind)
    have hget : UserRepository.GetByID false db req.FromUserID = .ok u :=
      getByID_eq_ok.mpr ⟨rfl, hfind, h64⟩
    rw [← hself, hget]
    simp

/-- Witness for C4 (amended): Bob to Bob is rejected as a self-transfer, and the
unknown account 7 to itself as "from_user not found". -/
theorem createTransfer_self_transfer_witness :
    TransferService.CreateTransfer (Env.ok "k1" 1) testDB2 ⟨1, 1, 100, ""⟩ =
        (.error "cannot transfer to yourself", testDB2) ∧
      TransferService.CreateTransfer (Env.ok "k1" 1) testDB2 ⟨7, 7, 100, ""⟩ =
        (.error "from_user not found", testDB2) :=
  ⟨createTransfer_self_transfer (Env.ok "k1" 1) testDB2 ⟨1, 1, 100, ""⟩
      (by decide) (by decide) (by decide) (by decide) (by decide),
    createTransfer_self_transfer (Env.ok "k1" 1) testDB2 ⟨7, 7, 100, ""⟩
      (by decide) (by decide) (by decide) (by decide) (by decide)⟩

/-- C5: when the completed transfer with the greatest id among those sent by A
went to the existing account B, a further transfer from A to B of any positive
amount is rejected with the repeated-recipient error, whatever the balance of A,
and the database is untouched. -/
theorem createTransfer_rejects_repeated_recipient (env : Env) (db : DB) (A B amount : Int)
    (note : String) (t : Transfer) (hWF : db.WF) (hB : db.hasUser B = true)
    (ht : t ∈ db.transfers) (hfrom : t.FromUserID = A) (hst : t.Status = "completed")
    (hmax : ∀ x ∈ db.transfers, x.FromUserID = A → x.Status = "completed" →
      x.TransferID ≤ t.TransferID)
    (hto : t.ToUserID = B) (hamt : 0 < amount) (hread : env.fails .lastRecipient = false) :
    TransferService.CreateTransfer env db ⟨A, B, amount, note⟩ =
      (.error "cannot transfer to the same recipient as your last transfer", db) := by
  have hamt' : ¬ amount ≤ 0 := by omega
  have hB0 : B ≠ 0 := by have := pos_of_hasUser hWF hB; omega
  unfold TransferService.CreateTransfer
  simp only [hamt', if_false, hread]
  rw [getLastTransferRecipient_of_max hWF ht hfrom hst hmax, hto]
  simp [hB0]

/-- Witness for C5: after the test's first transfer (Aki to Ben, 100 points) a
second one to Ben is rejected although Aki still holds 49900 points. -/
theorem createTransfer_rejects_repeated_recipient_witness :
    testDB3_AB.balance 1 = some 49900 ∧
      TransferService.CreateTransfer (Env.ok "k2" 2) testDB3_AB ⟨1, 2, 100, ""⟩ =
        (.error "cannot transfer to the same recipient as your last transfer", testDB3_AB) :=
  ⟨by decide,
    createTransfer_rejects_repeated_recipient (Env.ok "k2" 2) testDB3_AB 1 2 100 ""
      (newTransfer (Env.ok "k1" 1) testDB3 ⟨1, 2, 100, ""⟩)
      (by decide) (by decide) (by decide) (by decide) (by decide) (by decide) (by decide)
      (by decide) (by decide)⟩

/-- C6: only the last recipient counts. When the completed transfer with the
greatest id among those sent by A went to C, a transfer from A to another
existing account B of an amount A can pay succeeds, however many earlier
transfers from A went to B, provided no storage operation fails: the minted key
is new and the balance of B stays an `int64`. -/
theorem createTransfer_only_last_recipient_counts (env : Env) (db : DB) (A B C amount : Int)
    (note : String) (t : Transfer) (ba bb : Int) (hWF : db.WF)
    (hA : db.balance A = some ba) (hB : db.balance B = some bb)
    (hAB : A ≠ B) (hBC : B ≠ C)
    (ht : t ∈ db.transfers) (hfrom : t.FromUserID = A) (hst : t.Status = "completed")
    (hmax : ∀ x ∈ db.transfers, x.FromUserID = A → x.Status = "completed" →
      x.TransferID ≤ t.TransferID)
    (hto : t.ToUserID = C) (hamt : 0 < amount) (hbal : amount ≤ ba)
    (hreads : env.readsOK) (htx : env.txOK)
    (hkey : db.transfers.any (fun x => x.IdemKey == env.idemKey) = false)
    (hroom : bb + amount ≤ maxInt64) :
    (TransferService.CreateTransfer env db ⟨A, B, amount, note⟩).1 =
      .ok (newTransfer env db ⟨A, B, amount, note⟩) := by
  obtain ⟨fu, hfu, rfl⟩ := find?_of_balance hA
  obtain ⟨tu, htu, rfl⟩ := find?_of_balance hB
  have hlast := getLastTransferRecipient_of_max hWF ht hfrom hst hmax
  rw [createTransfer_succeeds env db ⟨A, B, amount, note⟩ hreads htx hamt hAB
    (by
      intro last hl
      rw [hlast, hto] at hl
      simp only [Except.ok.injEq] at hl
      subst hl
      exact fun h => hBC h.2.symm)
    hfu htu (hWF.2.2.1 fu (List.mem_of_find?_eq_some hfu))
    (hWF.2.2.1 tu (List.mem_of_find?_eq_some htu)) hbal hkey hroom]

/-- Witness for C6: the test's sequence. After Aki to Ben and Aki to Cat, a
further transfer from Aki to Ben succeeds. -/
theorem createTransfer_only_last_recipient_counts_witness :
    (TransferService.CreateTransfer (Env.ok "k4" 4) testDB3_ABC ⟨1, 2, 100, ""⟩).1 =
      .ok (newTransfer (Env.ok "k4" 4) testDB3_ABC ⟨1, 2, 100, ""⟩) :=
  createTransfer_only_last_recipient_counts (Env.ok "k4" 4) testDB3_ABC 1 2 3 100 ""
    (newTransfer (Env.ok "k3" 3) testDB3_AB ⟨1, 3, 100, ""⟩) 49800 100
    (by decide) (by decide) (by decide) (by decide) (by decide) (by decide) (by decide)
    (by decide) (by decide) (by decide) (by decide) (by decide) (by decide) (by decide)
    (by decide) (by decide)

/-- C7: for distinct existing accounts A and B where B is not the recipient of
the last completed transfer of A, a positive amount and reads that succeed,
`CreateTransfer` fails with "insufficient balance" exactly when the amount
exceeds the balance of A; an amount up to the whole balance is accepted and the
transfer carried out when no storage operation fails. -/
theorem createTransfer_insufficient_balance_iff (env : Env) (db : DB) (A B amount : Int)
    (note : String) (ba bb : Int) (hWF : db.WF)
    (hA : db.balance A = some ba) (hB : db.balance B = some bb) (hAB : A ≠ B)
    (hnot : ∀ t ∈ db.transfers, t.FromUserID = A → t.Status = "completed" →
      (∀ x ∈ db.transfers, x.FromUserID = A → x.Status = "completed" →
        x.TransferID ≤ t.TransferID) → t.ToUserID ≠ B)
    (hamt : 0 < amount) (hreads : env.readsOK) :
    ((TransferService.CreateTransfer env db ⟨A, B, amount, note⟩).1 =
        .error "insufficient balance" ↔ ba < amount) ∧
    (amount ≤ ba → env.txOK →
      db.transfers.any (fun x => x.IdemKey == env.idemKey) = false →
      bb + amount ≤ maxInt64 →
      (TransferService.CreateTransfer env db ⟨A, B, amount, note⟩).1 =
        .ok (newTransfer env db ⟨A, B, amount, note⟩)) := by
  obtain ⟨fu, hfu, rfl⟩ := find?_of_balance hA
  obtain ⟨tu, htu, rfl⟩ := find?_of_balance hB
  obtain ⟨last, hlast, hrep⟩ := not_repeated_of_not_last hnot
  have hfu64 := hWF.2.2.1 fu (List.mem_of_find?_eq_some hfu)
  have htu64 := hWF.2.2.1 tu (List.mem_of_find?_eq_some htu)
  have hgf : UserRepository.GetByID false db A = .ok fu := getByID_eq_ok.mpr ⟨rfl, hfu, hfu64⟩
  have hgt : UserRepository.GetByID false db B = .ok tu := getByID_eq_ok.mpr ⟨rfl, htu, htu64⟩
  refine ⟨⟨?_, ?_⟩, ?_⟩
  · intro he
    by_contra hge
    have hmem := createTransfer_error_after_checks env db ⟨A, B, amount, note⟩ hreads hamt
      hlast hrep hgf hgt hAB (by simpa using hge) he
    revert hmem
    decide
  · intro hlt
    rw [createTransfer_after_checks env db ⟨A, B, amount, note⟩ hreads hamt hlast hrep hgf hgt
      hAB, if_pos hlt]
  · intro hbal htx hkey hroom
    rw [createTransfer_succeeds env db ⟨A, B, amount, note⟩ hreads htx hamt hAB
      (by
        intro l hl
        rw [hlast] at hl
        simp only [Except.ok.injEq] at hl
        subst hl
        exact hrep)
      hfu htu hfu64 htu64 hbal hkey hroom]

/-- Witness for C7: the test's transfer of all 10000 points of Bob to Ann is not
refused for insufficient balance, and succeeds. -/
theorem createTransfer_insufficient_balance_iff_witness :
    ((TransferService.CreateTransfer (Env.ok "k1" 1) testDB2 ⟨1, 2, 10000, ""⟩).1 =
        .error "insufficient balance" ↔ (10000 : Int) < 10000) ∧
      (TransferService.CreateTransfer (Env.ok "k1" 1) testDB2 ⟨1, 2, 10000, ""⟩).1 =
        .ok (newTransfer (Env.ok "k1" 1) testDB2 ⟨1, 2, 10000, ""⟩) ∧
      ((TransferService.CreateTransfer (Env.ok "k1" 1) testDB2 ⟨1, 2, 10001, ""⟩).1 =
        .error "insufficient balance" ↔ (10000 : Int) < 10001) :=
  ⟨(createTransfer_insufficient_balance_iff (Env.ok "k1" 1) testDB2 1 2 10000 "" 10000 0
      (by decide) (by decide) (by decide) (by decide) (by decide) (by decide) (by decide)).1,
    (createTransfer_insufficient_balance_iff (Env.ok "k1" 1) testDB2 1 2 10000 "" 10000 0
      (by decide) (by decide) (by decide) (by decide) (by decide) (by decide) (by decide)).2
      (by decide) (by decide) (by decide) (by decide),
    (createTransfer_insufficient_balance_iff (Env.ok "k1" 1) testDB2 1 2 10001 "" 10000 0
      (by decide) (by decide) (by decide) (by decide) (by decide) (by decide) (by decide)).1⟩

/-- C8: in a database whose balances are all non-negative, every balance is
still non-negative after `CreateTransfer` returns, whether it succeeded or not. -/
theorem createTransfer_keeps_balances_nonneg (env : Env) (db : DB)
    (req : CreateTransferRequest) (hWF : db.WF)
    (hnn : ∀ u ∈ db.users, 0 ≤ u.PointsBalance) :
    ∀ u ∈ (TransferService.CreateTransfer env db req).2.users, 0 ≤ u.PointsBalance := by
  rcases createTransfer_cases env db req with ⟨e, he⟩ | ⟨t, db', hok⟩
  · rw [he]; exact hnn
  · have hfst : (TransferService.CreateTransfer env db req).1 = .ok t := by rw [hok]
    obtain ⟨bf, bt, hamt, hne, hbf, hbt, hbal, -, -, -, -, hdb⟩ := createTransfer_ok_inv hfst
    rw [hdb]
    intro u hu
    obtain ⟨u0, hu0, -, hbalance⟩ := mem_movedUsers (show u ∈ movedUsers env db req from hu)
    have h0 := hnn u0 hu0
    have hb0 := balance_of_mem hWF hu0
    rw [hbalance]
    by_cases h1 : u0.ID = req.FromUserID
    · have h2 : ¬ u0.ID = req.ToUserID := fun h => hne (h1.symm.trans h)
      rw [if_pos h1, if_neg h2]
      rw [h1, hbf] at hb0
      simp only [Option.some.injEq] at hb0
      omega
    · rw [if_neg h1]
      split <;> omega

/-- Witness for C8: the test's transfer of the whole balance leaves 0 and 10000. -/
theorem createTransfer_keeps_balances_nonneg_witness :
    (∀ u ∈ testDB2.users, 0 ≤ u.PointsBalance) ∧
      ∀ u ∈ (TransferService.CreateTransfer (Env.ok "k1" 1) testDB2 ⟨1, 2, 10000, ""⟩).2.users,
        0 ≤ u.PointsBalance :=
  ⟨by decide,
    createTransfer_keeps_balances_nonneg (Env.ok "k1" 1) testDB2 ⟨1, 2, 10000, ""⟩
      (by decide) (by decide)⟩

/-- C9: a successful `CreateTransfer` appends exactly two rows to the ledger and
one row to the transfers: a `transfer_out` row for the source with change minus
the amount and the new source balance, then a `transfer_in` row for the
destination with change plus the amount and the new destination balance; both
carry the key of the new transfer row, which no earlier row has; the two changes
sum to zero. -/
theorem createTransfer_appends_two_ledger_rows (env : Env) (db : DB)
    (req : CreateTransferRequest) (t : Transfer)
    (h : (TransferService.CreateTransfer env db req).1 = .ok t) :
    ∃ debit credit : PointLedger,
      (TransferService.CreateTransfer env db req).2.ledger = db.ledger ++ [debit, credit] ∧
      debit.UserID = req.FromUserID ∧ debit.EventType = "transfer_out" ∧
      debit.Change = -req.Amount ∧
      (TransferService.CreateTransfer env db req).2.balance req.FromUserID =
        some debit.BalanceAfter ∧
      debit.TransferID = some t.TransferID ∧
      credit.UserID = req.ToUserID ∧ credit.EventType = "transfer_in" ∧
      credit.Change = req.Amount ∧
      (TransferService.CreateTransfer env db req).2.balance req.ToUserID =
        some credit.BalanceAfter ∧
      credit.TransferID = some t.TransferID ∧
      debit.Change + credit.Change = 0 ∧
      (TransferService.CreateTransfer env db req).2.transfers = db.transfers ++ [t] ∧
      (∀ x ∈ db.transfers, x.TransferID ≠ t.TransferID) := by
  obtain ⟨bf, bt, -, hne, hbf, hbt, -, -, -, -, ht, hdb⟩ := createTransfer_ok_inv h
  have hbal : ∀ k, (TransferService.CreateTransfer env db req).2.balance k =
      DB.balance { db with users := movedUsers env db req } k := by
    intro k; rw [hdb]; rfl
  refine ⟨ledgerOutRow env db req (bf - req.Amount),
    ledgerInRow env db req (bf - req.Amount) (bt + req.Amount), ?_, rfl, rfl, rfl, ?_, ?_,
    rfl, rfl, rfl, ?_, ?_, ?_, ?_, ?_⟩
  · rw [hdb]; rfl
  · rw [hbal, balance_movedUsers env db req hne, hbf]; simp [ledgerOutRow]
  · rw [ht]; rfl
  · rw [hbal, balance_movedUsers env db req hne, hbt]; simp [ledgerInRow, Ne.symm hne]
  · rw [ht]; rfl
  · simp [ledgerOutRow, ledgerInRow]
  · rw [hdb, ht]; rfl
  · intro x hx
    rw [ht]
    have := nextRowID_gt_mem db.transferSeq (db.transfers.map (fun r => r.TransferID))
      x.TransferID (List.mem_map_of_mem _ hx)
    simp only [newTransfer]
    omega

/-- Witness for C9: the test's transfer of 150 points from Bob to Ann. -/
theorem createTransfer_appends_two_ledger_rows_witness :
    ∃ debit credit : PointLedger,
      (TransferService.CreateTransfer (Env.ok "k1" 1) testDB2 ⟨1, 2, 150, ""⟩).2.ledger =
        testDB2.ledger ++ [debit, credit] ∧
      debit.UserID = 1 ∧ debit.EventType = "transfer_out" ∧ debit.Change = -150 ∧
      (TransferService.CreateTransfer (Env.ok "k1" 1) testDB2 ⟨1, 2, 150, ""⟩).2.balance 1 =
        some debit.BalanceAfter ∧
      debit.TransferID = some (newTransfer (Env.ok "k1" 1) testDB2 ⟨1, 2, 150, ""⟩).TransferID ∧
      credit.UserID = 2 ∧ credit.EventType = "transfer_in" ∧ credit.Change = 150 ∧
      (TransferService.CreateTransfer (Env.ok "k1" 1) testDB2 ⟨1, 2, 150, ""⟩).2.balance 2 =
        some credit.BalanceAfter ∧
      credit.TransferID = some (newTransfer (Env.ok "k1" 1) testDB2 ⟨1, 2, 150, ""⟩).TransferID ∧
      debit.Change + credit.Change = 0 ∧
      (TransferService.CreateTransfer (Env.ok "k1" 1) testDB2 ⟨1, 2, 150, ""⟩).2.transfers =
        testDB2.transfers ++ [newTransfer (Env.ok "k1" 1) testDB2 ⟨1, 2, 150, ""⟩] ∧
      (∀ x ∈ testDB2.transfers,
        x.TransferID ≠ (newTransfer (Env.ok "k1" 1) testDB2 ⟨1, 2, 150, ""⟩).TransferID) :=
  createTransfer_appends_two_ledger_rows (Env.ok "k1" 1) testDB2 ⟨1, 2, 150, ""⟩
    (newTransfer (Env.ok "k1" 1) testDB2 ⟨1, 2, 150, ""⟩) (by decide)

/-- C10: the ledger replay invariant (every balance is the sum of the changes of
the account's ledger rows, and the `balance_after` of every ledger row is the
running sum of its account's changes up to that row, in insertion order) is
preserved by `CreateTransfer`, and holds in every state reached from the empty
database by creating accounts and submitting transfers. -/
theorem createTransfer_preserves_ledger_replay :
    (∀ (env : Env) (db : DB) (req : CreateTransferRequest), db.ledgerReplays →
      (TransferService.CreateTransfer env db req).2.ledgerReplays) ∧
    (∀ db : DB, Reachable db → db.ledgerReplays) :=
  ⟨fun _ _ _ hinv => createTransfer_ledgerReplays hinv, fun db h => (reachable_ledger db h).1⟩

/-- Witness for C10: the invariant holds where account 1 earned 500 points, and
still holds after it sends 200 of them to account 2 (a transfer that succeeds). -/
theorem createTransfer_preserves_ledger_replay_witness :
    earnedDB.ledgerReplays ∧
      (TransferService.CreateTransfer (Env.ok "k1" 2) earnedDB ⟨1, 2, 200, ""⟩).1 =
        .ok (newTransfer (Env.ok "k1" 2) earnedDB ⟨1, 2, 200, ""⟩) ∧
      (TransferService.CreateTransfer (Env.ok "k1" 2) earnedDB ⟨1, 2, 200, ""⟩).2.ledgerReplays ∧
      (UserService.Create false 0 DB.empty ⟨"Tom", "Lee", "", "", "", ""⟩).2.ledgerReplays :=
  ⟨by decide, by decide,
    createTransfer_preserves_ledger_replay.1 (Env.ok "k1" 2) earnedDB ⟨1, 2, 200, ""⟩
      (by decide),
    createTransfer_preserves_ledger_replay.2 _
      (Reachable.createUser false 0 DB.empty ⟨"Tom", "Lee", "", "", "", ""⟩ Reachable.empty)⟩

/-! ## Last recipient and token lookup -/

theorem getLastTransferRecipient_after_transfer {env : Env} {db : DB}
    {req : CreateTransferRequest} {t : Transfer}
    (h : (TransferService.CreateTransfer env db req).1 = .ok t) :
    UserRepository.GetLastTransferRecipient false (TransferService.CreateTransfer env db req).2
      req.FromUserID = .ok req.ToUserID := by
  obtain ⟨bf, bt, -, -, -, -, -, -, -, -, ht, hdb⟩ := createTransfer_ok_inv h
  have htr : (TransferService.CreateTransfer env db req).2.transfers =
      db.transfers ++ [newTransfer env db req] := by rw [hdb]; rfl
  have hmem : newTransfer env db req ∈ (TransferService.CreateTransfer env db req).2.transfers := by
    rw [htr]; simp
  rcases getLastTransferRecipient_cases (TransferService.CreateTransfer env db req).2
      req.FromUserID with ⟨-, hnone⟩ | ⟨m, hm, hmmem, -, -, hmmax⟩
  · exact absurd rfl (hnone _ hmem rfl)
  · have hle := hmmax _ hmem rfl rfl
    rw [htr] at hmmem
    rcases List.mem_append.mp hmmem with hold | hnew
    · have := nextRowID_gt_mem db.transferSeq (db.transfers.map (fun r => r.TransferID))
        m.TransferID (List.mem_map_of_mem _ hold)
      simp only [newTransfer] at hle
      omega
    · rw [List.mem_singleton] at hnew
      rw [hm, hnew]; rfl

/-- C11: after a successful transfer from A to B, an immediately following
transfer from A to B of any positive amount is rejected with the
repeated-recipient error and the database, hence both balances, stays as the
first transfer left it. -/
theorem createTransfer_twice_rejected (env1 env2 : Env) (db : DB) (A B n m : Int)
    (note1 note2 : String) (t : Transfer) (hWF : db.WF)
    (h : (TransferService.CreateTransfer env1 db ⟨A, B, n, note1⟩).1 = .ok t)
    (hm : 0 < m) (hread : env2.fails .lastRecipient = false) :
    TransferService.CreateTransfer env2
        (TransferService.CreateTransfer env1 db ⟨A, B, n, note1⟩).2 ⟨A, B, m, note2⟩ =
      (.error "cannot transfer to the same recipient as your last transfer",
        (TransferService.CreateTransfer env1 db ⟨A, B, n, note1⟩).2) := by
  have hlast := getLastTransferRecipient_after_transfer h
  obtain ⟨bf, bt, -, -, -, hbt, -⟩ := createTransfer_ok_inv h
  obtain ⟨tu, htu, -⟩ := find?_of_balance hbt
  have hB0 : B ≠ 0 := by
    have := pos_of_hasUser hWF (hasUser_of_find? htu)
    simp only at this
    omega
  have hm' : ¬ m ≤ 0 := by omega
  simp only at hlast
  generalize (TransferService.CreateTransfer env1 db ⟨A, B, n, note1⟩).2 = db1 at hlast ⊢
  unfold TransferService.CreateTransfer
  simp only [hm', if_false, hread]
  rw [hlast]
  simp [hB0]

/-- Witness for C11: Bob holds 10000 and Ann 0; the first transfer of 100 succeeds
and leaves 9900 and 100, the second is rejected and leaves 9900 and 100. -/
theorem createTransfer_twice_rejected_witness :
    (TransferService.CreateTransfer (Env.ok "k1" 1) testDB2 ⟨1, 2, 100, ""⟩).1 =
        .ok (newTransfer (Env.ok "k1" 1) testDB2 ⟨1, 2, 100, ""⟩) ∧
      testDB2_sent.balance 1 = some 9900 ∧ testDB2_sent.balance 2 = some 100 ∧
      TransferService.CreateTransfer (Env.ok "k2" 2) testDB2_sent ⟨1, 2, 100, ""⟩ =
        (.error "cannot transfer to the same recipient as your last transfer", testDB2_sent) ∧
      (TransferService.CreateTransfer (Env.ok "k2" 2) testDB2_sent ⟨1, 2, 100, ""⟩).2.balance 1 =
        some 9900 ∧
      (TransferService.CreateTransfer (Env.ok "k2" 2) testDB2_sent ⟨1, 2, 100, ""⟩).2.balance 2 =
        some 100 :=
  ⟨by decide, by decide, by decide,
    createTransfer_twice_rejected (Env.ok "k1" 1) (Env.ok "k2" 2) testDB2 1 2 100 100 "" ""
      (newTransfer (Env.ok "k1" 1) testDB2 ⟨1, 2, 100, ""⟩) (by decide) (by decide) (by decide)
      (by decide),
    by decide, by decide⟩

theorem find?_key_none {db : DB} {key : String}
    (h : db.transfers.any (fun x => x.IdemKey == key) = false) :
    db.transfers.find? (fun x => x.IdemKey == key) = none := by
  rw [List.find?_eq_none]
  intro x hx hk
  have : db.transfers.any (fun x => x.IdemKey == key) = true := List.any_eq_true.mpr ⟨x, hx, hk⟩
  rw [h] at this
  cases this

theorem key_fresh_iff {db : DB} {key : String} :
    db.transfers.any (fun x => x.IdemKey == key) = false ↔
      ∀ r ∈ db.transfers, r.IdemKey ≠ key := by
  constructor
  · intro h r hr hk
    have : db.transfers.any (fun x => x.IdemKey == key) = true :=
      List.any_eq_true.mpr ⟨r, hr, by simpa using hk⟩
    rw [h] at this
    cases this
  · intro h
    cases hany : db.transfers.any (fun x => x.IdemKey == key) with
    | false => rfl
    | true =>
      rw [List.any_eq_true] at hany
      obtain ⟨r, hr, hk⟩ := hany
      exact absurd (by simpa using hk) (h r hr)

/-- C12: after a successful `CreateTransfer` returning `t`, looking up the key of
`t` in the resulting database returns `t` itself: the key minted for the call,
the source, destination, amount and note of the request, status `completed` and
the completion time set; and a key carried by no row is answered with "transfer
not found". -/
theorem getByIdemKey_round_trip :
    (∀ (env : Env) (db : DB) (req : CreateTransferRequest) (t : Transfer),
      (TransferService.CreateTransfer env db req).1 = .ok t →
        TransferService.GetByIdemKey false (TransferService.CreateTransfer env db req).2
          t.IdemKey = .ok t ∧
        t.IdemKey = env.idemKey ∧ t.FromUserID = req.FromUserID ∧
        t.ToUserID = req.ToUserID ∧ t.Amount = req.Amount ∧ t.Note = req.Note ∧
        t.Status = "completed" ∧ t.CompletedAt = some env.now ∧
        t ∈ (TransferService.CreateTransfer env db req).2.transfers) ∧
    (∀ (db : DB) (key : String), (∀ r ∈ db.transfers, r.IdemKey ≠ key) →
      TransferService.GetByIdemKey false db key = .error "transfer not found") := by
  constructor
  · intro env db req t h
    obtain ⟨bf, bt, -, -, -, -, -, -, -, hkey, ht, hdb⟩ := createTransfer_ok_inv h
    have htr : (TransferService.CreateTransfer env db req).2.transfers =
        db.transfers ++ [newTransfer env db req] := by rw [hdb]; rfl
    subst ht
    refine ⟨?_, rfl, rfl, rfl, rfl, rfl, rfl, rfl, ?_⟩
    · unfold TransferService.GetByIdemKey TransferRepository.GetByIdemKey
      rw [htr]
      simp only [Bool.false_eq_true, if_false, List.find?_append]
      have hnone : db.transfers.find? (fun x => x.IdemKey == (newTransfer env db req).IdemKey) =
          none := find?_key_none hkey
      rw [hnone]
      simp
    · rw [htr]; simp
  · intro db key hfresh
    unfold TransferService.GetByIdemKey TransferRepository.GetByIdemKey
    rw [find?_key_none (key_fresh_iff.mpr hfresh)]
    rfl

/-- Witness for C12: the key "k1" of the test's 150-point transfer is found again
with the id 1, and the key "k9" is not found. -/
theorem getByIdemKey_round_trip_witness :
    (TransferService.GetByIdemKey false
        (TransferService.CreateTransfer (Env.ok "k1" 1) testDB2 ⟨1, 2, 150, "gift"⟩).2 "k1" =
        .ok (newTransfer (Env.ok "k1" 1) testDB2 ⟨1, 2, 150, "gift"⟩) ∧
      (newTransfer (Env.ok "k1" 1) testDB2 ⟨1, 2, 150, "gift"⟩).TransferID = 1) ∧
      TransferService.GetByIdemKey false
        (TransferService.CreateTransfer (Env.ok "k1" 1) testDB2 ⟨1, 2, 150, "gift"⟩).2 "k9" =
        .error "transfer not found" :=
  ⟨⟨(getByIdemKey_round_trip.1 (Env.ok "k1" 1) testDB2 ⟨1, 2, 150, "gift"⟩
      (newTransfer (Env.ok "k1" 1) testDB2 ⟨1, 2, 150, "gift"⟩) (by decide)).1, by decide⟩,
    getByIdemKey_round_trip.2 _ "k9" (by decide)⟩

theorem filter_key_length_le_one (l : List Transfer) (key : String)
    (h : (l.map (fun t => t.IdemKey)).Nodup) :
    (l.filter (fun t => t.IdemKey == key)).length ≤ 1 := by
  induction l with
  | nil => simp
  | cons x xs ih =>
    rw [List.map_cons, List.nodup_cons] at h
    obtain ⟨hx, hxs⟩ := h
    by_cases hk : x.IdemKey = key
    · have hnil : xs.filter (fun t => t.IdemKey == key) = [] := by
        rw [List.filter_eq_nil_iff]
        intro y hy hyk
        apply hx
        have hyk' : y.IdemKey = key := by simpa using hyk
        rw [hk, ← hyk']
        exact List.mem_map_of_mem _ hy
      simp [List.filter_cons, hk, hnil]
    · have := ih hxs
      simpa [List.filter_cons, hk] using this

theorem createTransfer_tokensUnique {env : Env} {db : DB} {req : CreateTransferRequest}
    (h : db.tokensUnique) : (TransferService.CreateTransfer env db req).2.tokensUnique := by
  rcases createTransfer_cases env db req with ⟨e, he⟩ | ⟨t, db', hok⟩
  · rw [he]; exact h
  have hfst : (TransferService.CreateTransfer env db req).1 = .ok t := by rw [hok]
  obtain ⟨bf, bt, -, -, -, -, -, -, -, hkey, -, hdb⟩ := createTransfer_ok_inv hfst
  rw [hdb]
  show ((db.transfers ++ [newTransfer env db req]).map (fun t => t.IdemKey)).Nodup
  rw [List.map_append, List.map_singleton]
  apply List.Nodup.append h (List.nodup_singleton _)
  intro k hk hk'
  rw [List.mem_singleton] at hk'
  rw [List.mem_map] at hk
  obtain ⟨r, hr, hrk⟩ := hk
  exact key_fresh_iff.mp hkey r hr (hrk.trans hk')

theorem reachable_tokensUnique (db : DB) (h : Reachable db) : db.tokensUnique := by
  induction h with
  | empty => exact List.nodup_nil
  | createUser fail now db req _ ih =>
    rcases userCreate_cases fail now db req with heq | ⟨row, -, -, heq⟩
    · rw [heq]; exact ih
    · rw [heq]; exact ih
  | createTransfer env db req _ ih => exact createTransfer_tokensUnique ih

theorem createTransfer_key_fresh {env : Env} {db : DB} {req : CreateTransferRequest}
    {t : Transfer} (h : (TransferService.CreateTransfer env db req).1 = .ok t) :
    t.IdemKey = env.idemKey ∧ ∀ r ∈ db.transfers, r.IdemKey ≠ env.idemKey := by
  obtain ⟨bf, bt, -, -, -, -, -, -, -, hkey, ht, -⟩ := createTransfer_ok_inv h
  exact ⟨by rw [ht]; rfl, key_fresh_iff.mp hkey⟩

/-- C13: uniqueness of the idempotency keys is preserved by `CreateTransfer` and
holds in every state reached from the empty database; a call whose minted key
is already in the table fails and changes nothing; two successful calls, the
second on a state that still holds the row of the first, never return the same
key; with unique keys a lookup by key matches at most one row; and the key of
a successful call is carried by no row that was in the table before. -/
theorem idempotency_keys_unique :
    (∀ (env : Env) (db : DB) (req : CreateTransferRequest), db.tokensUnique →
      (TransferService.CreateTransfer env db req).2.tokensUnique) ∧
    (∀ db : DB, Reachable db → db.tokensUnique) ∧
    (∀ (env : Env) (db : DB) (req : CreateTransferRequest) (r : Transfer),
      r ∈ db.transfers → r.IdemKey = env.idemKey →
      ∃ e, TransferService.CreateTransfer env db req = (.error e, db)) ∧
    (∀ (env1 env2 : Env) (db : DB) (req1 req2 : CreateTransferRequest) (t1 t2 : Transfer),
      (TransferService.CreateTransfer env1 db req1).1 = .ok t1 →
      (TransferService.CreateTransfer env2 (TransferService.CreateTransfer env1 db req1).2
        req2).1 = .ok t2 →
      t1.IdemKey ≠ t2.IdemKey ∧ t1.TransferID ≠ t2.TransferID) ∧
    (∀ (db : DB) (key : String), db.tokensUnique →
      (db.transfers.filter (fun t => t.IdemKey == key)).length ≤ 1) ∧
    (∀ (env : Env) (db : DB) (req : CreateTransferRequest) (t : Transfer),
      (TransferService.CreateTransfer env db req).1 = .ok t →
      ∀ r ∈ db.transfers, r.IdemKey ≠ t.IdemKey) := by
  refine ⟨fun _ _ _ h => createTransfer_tokensUnique h, reachable_tokensUnique, ?_, ?_,
    fun db key h => filter_key_length_le_one db.transfers key h, ?_⟩
  rotate_left 2
  · intro env db req t h r hr
    obtain ⟨hk, hfresh⟩ := createTransfer_key_fresh h
    rw [hk]
    exact hfresh r hr
  · intro env db req r hr hk
    rcases createTransfer_cases env db req with ⟨e, he⟩ | ⟨t, db', hok⟩
    · exact ⟨e, he⟩
    · have hfst : (TransferService.CreateTransfer env db req).1 = .ok t := by rw [hok]
      exact absurd hk ((createTransfer_key_fresh hfst).2 r hr)
  · intro env1 env2 db req1 req2 t1 t2 h1 h2
    obtain ⟨bf, bt, -, -, -, -, -, -, -, -, ht1, hdb⟩ := createTransfer_ok_inv h1
    have hmem : t1 ∈ (TransferService.CreateTransfer env1 db req1).2.transfers := by
      rw [hdb, ht1]; simp [afterTransfer]
    obtain ⟨hk2, hfresh⟩ := createTransfer_key_fresh h2
    refine ⟨fun heq => hfresh t1 hmem (heq.trans hk2), ?_⟩
    obtain ⟨-, -, -, -, -, -, -, -, -, -, ht2, -⟩ := createTransfer_ok_inv h2
    have := nextRowID_gt_mem (TransferService.CreateTransfer env1 db req1).2.transferSeq
      ((TransferService.CreateTransfer env1 db req1).2.transfers.map (fun r => r.TransferID))
      t1.TransferID (List.mem_map_of_mem _ hmem)
    rw [ht2]
    simp only [newTransfer]
    omega

/-- Witness for C13: after the test's first transfer with key "k1", a call that
mints "k1" again (to another recipient, so that nothing else rejects it) fails on
the unique index and leaves the database as it was; the keys stay unique. -/
theorem idempotency_keys_unique_witness :
    testDB3_AB.tokensUnique ∧
      TransferService.CreateTransfer (Env.ok "k1" 2) testDB3_AB ⟨1, 3, 100, ""⟩ =
        (.error "UNIQUE constraint failed: transfers.idempotency_key", testDB3_AB) ∧
      (∃ e, TransferService.CreateTransfer (Env.ok "k1" 2) testDB3_AB ⟨1, 3, 100, ""⟩ =
        (.error e, testDB3_AB)) ∧
      testDB3_ABC.tokensUnique ∧
      (testDB3_ABC.transfers.filter (fun t => t.IdemKey == "k3")).length ≤ 1 :=
  ⟨by decide, by decide,
    idempotency_keys_unique.2.2.1 (Env.ok "k1" 2) testDB3_AB ⟨1, 3, 100, ""⟩
      (newTransfer (Env.ok "k1" 1) testDB3 ⟨1, 2, 100, ""⟩) (by decide) (by decide),
    idempotency_keys_unique.1 (Env.ok "k3" 3) testDB3_AB ⟨1, 3, 100, ""⟩ (by decide),
    idempotency_keys_unique.2.2.2.2.1 testDB3_ABC "k3" (by decide)⟩

/-! ## Listing -/

theorem wrapInt_eq_self {x : Int} (h1 : minInt64 ≤ x) (h2 : x ≤ maxInt64) : wrapInt x = x := by
  unfold wrapInt
  have hmin : minInt64 = -9223372036854775808 := rfl
  have hmax : maxInt64 = 9223372036854775807 := rfl
  rw [Int.emod_eq_of_lt (by omega) (by norm_num; omega)]
  omega

theorem offset_eq_product {page pageSize : Int} (hp : 1 ≤ page) (hs : 1 ≤ pageSize)
    (hfit : (page - 1) * pageSize ≤ maxInt64) :
    TransferRepository.GetByUserID.offset page pageSize = (page - 1) * pageSize := by
  have hmin : minInt64 = -9223372036854775808 := rfl
  have h0 : 0 ≤ page - 1 := by omega
  have hle : page - 1 ≤ (page - 1) * pageSize := by nlinarith
  have hnn : 0 ≤ (page - 1) * pageSize := by nlinarith
  unfold TransferRepository.GetByUserID.offset
  have hin : wrapInt (page - 1) = page - 1 := wrapInt_eq_self (by omega) (by omega)
  rw [hin, wrapInt_eq_self (by omega) hfit]

theorem getByUserID_ok (db : DB) (u p s : Int) (hp : 1 ≤ p) (hs1 : 1 ≤ s) (hs2 : s ≤ 200) :
    TransferService.GetByUserID false false db u p s =
      .ok { Data := some (limitOffset s (TransferRepository.GetByUserID.offset p s)
              (newestFirst (db.transfers.filter (involves u))))
            Page := p
            PageSize := s
            Total := (db.transfers.filter (involves u)).length } := by
  have hp' : ¬ p < 1 := by omega
  have hs' : ¬ (s < 1 ∨ s > 200) := by omega
  unfold TransferService.GetByUserID TransferRepository.GetByUserID
  simp only [hp', hs', if_false, Bool.false_eq_true]
  cases hrows : limitOffset s (TransferRepository.GetByUserID.offset p s)
      (newestFirst (db.transfers.filter (involves u))) with
  | nil => simp
  | cons x xs => simp

theorem mem_limitOffset {limit offset : Int} {rows : List Transfer} {t : Transfer}
    (h : t ∈ limitOffset limit offset rows) : t ∈ rows := by
  unfold limitOffset at h
  split at h
  · exact List.mem_of_mem_drop h
  · exact List.mem_of_mem_drop (List.mem_of_mem_take h)

theorem mem_newestFirst {rows : List Transfer} {t : Transfer} (h : t ∈ newestFirst rows) :
    t ∈ rows :=
  (List.perm_insertionSort newerOrEqual rows).subset h

/-- C14: `GetByUserID` answers a call as it answers the call with the page
replaced by 1 when below 1 and the page size replaced by 20 when below 1 or
above 200; a page of at least 1 and a page size from 1 to 200 are kept; a
response reports the normalised values in `Page` and `PageSize`, so `Page` is at
least 1 and `PageSize` lies between 1 and 200. -/
theorem getByUserID_normalises (failCount failQuery : Bool) (db : DB)
    (userID page pageSize : Int) :
    TransferService.GetByUserID failCount failQuery db userID page pageSize =
      TransferService.GetByUserID failCount failQuery db userID
        (if page < 1 then 1 else page)
        (if pageSize < 1 ∨ pageSize > 200 then 20 else pageSize) ∧
    (∀ resp, TransferService.GetByUserID failCount failQuery db userID page pageSize = .ok resp →
      resp.Page = (if page < 1 then 1 else page) ∧
      resp.PageSize = (if pageSize < 1 ∨ pageSize > 200 then 20 else pageSize) ∧
      1 ≤ resp.Page ∧ 1 ≤ resp.PageSize ∧ resp.PageSize ≤ 200) ∧
    (1 ≤ page → (if page < 1 then 1 else page) = page) ∧
    (1 ≤ pageSize → pageSize ≤ 200 →
      (if pageSize < 1 ∨ pageSize > 200 then 20 else pageSize) = pageSize) := by
  have hP : (if (if page < 1 then 1 else page) < 1 then 1 else (if page < 1 then 1 else page)) =
      (if page < 1 then 1 else page) := by
    split_ifs <;> omega
  have hS : (if (if pageSize < 1 ∨ pageSize > 200 then 20 else pageSize) < 1 ∨
        (if pageSize < 1 ∨ pageSize > 200 then 20 else pageSize) > 200 then 20
      else (if pageSize < 1 ∨ pageSize > 200 then 20 else pageSize)) =
      (if pageSize < 1 ∨ pageSize > 200 then 20 else pageSize) := by
    split_ifs <;> omega
  refine ⟨?_, ?_, ?_, ?_⟩
  · unfold TransferService.GetByUserID
    simp only [hP, hS]
  · intro resp h
    unfold TransferService.GetByUserID at h
    simp only at h
    split at h
    · cases h
    · simp only [Except.ok.injEq] at h
      subst h
      refine ⟨rfl, rfl, ?_, ?_, ?_⟩
      · show 1 ≤ (if page < 1 then 1 else page)
        split_ifs <;> omega
      · show 1 ≤ (if pageSize < 1 ∨ pageSize > 200 then 20 else pageSize)
        split_ifs <;> omega
      · show (if pageSize < 1 ∨ pageSize > 200 then 20 else pageSize) ≤ 200
        split_ifs <;> omega
  · intro h; rw [if_neg (by omega)]
  · intro h1 h2; rw [if_neg (by omega)]

/-- Witness for C14: page 0 with page size 500 is answered as page 1 with page
size 20. -/
theorem getByUserID_normalises_witness :
    TransferService.GetByUserID false false testDB3_ABC 1 0 500 =
        TransferService.GetByUserID false false testDB3_ABC 1 1 20 ∧
      ∃ resp, TransferService.GetByUserID false false testDB3_ABC 1 0 500 = .ok resp ∧
        resp.Page = 1 ∧ resp.PageSize = 20 :=
  ⟨(getByUserID_normalises false false testDB3_ABC 1 0 500).1,
    ⟨_, rfl,
      ((getByUserID_normalises false false testDB3_ABC 1 0 500).2.1 _ rfl).1,
      ((getByUserID_normalises false false testDB3_ABC 1 0 500).2.1 _ rfl).2.1⟩⟩

/-- C15 (defect of the code): account 1 has two transfers. Page
4611686018427387905 with page size 4 has 2^64 rows to skip and must be empty,
but `(page - 1) * pageSize` wraps around to 0 in Go's `int` and the listing
returns both rows, labelled as page 4611686018427387905. The same happens at
the largest `int`, which `strconv.Atoi` hands to the service for any longer
digit string: with the default page size 20 the offset wraps to -40, SQLite
skips nothing, and the first rows come back as page 9223372036854775807. -/
theorem getByUserID_huge_page_returns_first_rows :
    ((1 : Int) ≤ 4611686018427387905 ∧
      TransferService.GetByUserID false false testDB3_ABC 1 4611686018427387905 4 =
        .ok { Data := some [newTransfer (Env.ok "k3" 3) testDB3_AB ⟨1, 3, 100, ""⟩,
                newTransfer (Env.ok "k1" 1) testDB3 ⟨1, 2, 100, ""⟩]
              Page := 4611686018427387905
              PageSize := 4
              Total := 2 } ∧
      ((newestFirst (testDB3_ABC.transfers.filter (involves 1))).drop
          (((4611686018427387905 : Int) - 1) * 4).toNat).take 4 = []) ∧
    ((1 : Int) ≤ 9223372036854775807 ∧
      TransferService.GetByUserID false false testDB3_ABC 1 9223372036854775807 20 =
        .ok { Data := some [newTransfer (Env.ok "k3" 3) testDB3_AB ⟨1, 3, 100, ""⟩,
                newTransfer (Env.ok "k1" 1) testDB3 ⟨1, 2, 100, ""⟩]
              Page := 9223372036854775807
              PageSize := 20
              Total := 2 } ∧
      ((newestFirst (testDB3_ABC.transfers.filter (involves 1))).drop
          (((9223372036854775807 : Int) - 1) * 20).toNat).take 20 = []) := by
  decide

/-- Listing where the offset does not overflow (supporting fact for C15, which
the code meets there): for a page of at least 1 and a page size from 1 to 200,
with no storage failure, `GetByUserID` succeeds; `Total` is the number of transfer
rows whose source or destination is the account, whatever the page; `Data` is a
slice that is not `nil`, holds at most page-size rows, each with the account as
source or destination, and is empty with `Total` 0 when no row matches; and
when `(page - 1) * pageSize` fits Go's `int`, `Data` is the matching rows sorted
newest first with the first `(page - 1) * pageSize` skipped and at most
page-size kept. -/
theorem getByUserID_listing (db : DB) (u p s : Int) (hp : 1 ≤ p) (hs1 : 1 ≤ s)
    (hs2 : s ≤ 200) :
    ∃ resp rows,
      TransferService.GetByUserID false false db u p s = .ok resp ∧
      resp.Total = (db.transfers.filter (fun t => t.FromUserID == u || t.ToUserID == u)).length ∧
      resp.Data = some rows ∧
      (∀ t ∈ rows, t.FromUserID = u ∨ t.ToUserID = u) ∧
      (rows.length : Int) ≤ s ∧
      ((∀ t ∈ db.transfers, t.FromUserID ≠ u ∧ t.ToUserID ≠ u) → rows = [] ∧ resp.Total = 0) ∧
      ((p - 1) * s ≤ maxInt64 →
        ∃ sorted : List Transfer,
          sorted.Perm (db.transfers.filter (fun t => t.FromUserID == u || t.ToUserID == u)) ∧
          sorted.Sorted (fun a b => b.CreatedAt ≤ a.CreatedAt) ∧
          rows = (sorted.drop ((p - 1) * s).toNat).take s.toNat) := by
  have hs' : ¬ s < 0 := by omega
  refine ⟨_, _, getByUserID_ok db u p s hp hs1 hs2, rfl, rfl, ?_, ?_, ?_, ?_⟩
  · intro t ht
    have hmem := List.mem_filter.mp (mem_newestFirst (mem_limitOffset ht))
    simpa [involves] using hmem.2
  · unfold limitOffset
    rw [if_neg hs', List.length_take]
    have : ((min s.toNat ((newestFirst (db.transfers.filter (involves u))).drop
        (TransferRepository.GetByUserID.offset p s).toNat).length : Nat) : Int) ≤ s.toNat :=
      Int.ofNat_le.mpr (Nat.min_le_left _ _)
    rw [Int.toNat_of_nonneg (by omega)] at this
    exact this
  · intro hnone
    have hnil : db.transfers.filter (involves u) = [] := by
      rw [List.filter_eq_nil_iff]
      intro t ht
      have := hnone t ht
      simp [involves, this.1, this.2]
    simp only [hnil]
    constructor
    · unfold limitOffset newestFirst
      simp
    · rfl
  · intro hfit
    refine ⟨newestFirst (db.transfers.filter (involves u)),
      List.perm_insertionSort newerOrEqual _, List.sorted_insertionSort newerOrEqual _, ?_⟩
    unfold limitOffset
    rw [if_neg hs', offset_eq_product hp hs1 hfit]

/-- Example of the listing where the offset does not overflow: the first page
of account 1 holds its two transfers, the newest first, and account 9 gets an
empty list and total 0. -/
theorem getByUserID_listing_witness :
    (∃ resp rows,
      TransferService.GetByUserID false false testDB3_ABC 1 1 20 = .ok resp ∧
      resp.Total = (testDB3_ABC.transfers.filter
        (fun t => t.FromUserID == 1 || t.ToUserID == 1)).length ∧
      resp.Data = some rows ∧
      (∀ t ∈ rows, t.FromUserID = 1 ∨ t.ToUserID = 1) ∧
      (rows.length : Int) ≤ 20 ∧
      ((∀ t ∈ testDB3_ABC.transfers, t.FromUserID ≠ 1 ∧ t.ToUserID ≠ 1) →
        rows = [] ∧ resp.Total = 0) ∧
      (((1 : Int) - 1) * 20 ≤ maxInt64 →
        ∃ sorted : List Transfer,
          sorted.Perm (testDB3_ABC.transfers.filter
            (fun t => t.FromUserID == 1 || t.ToUserID == 1)) ∧
          sorted.Sorted (fun a b => b.CreatedAt ≤ a.CreatedAt) ∧
          rows = (sorted.drop (((1 : Int) - 1) * 20).toNat).take (20 : Int).toNat)) ∧
      TransferService.GetByUserID false false testDB3_ABC 1 1 20 =
        .ok { Data := some [newTransfer (Env.ok "k3" 3) testDB3_AB ⟨1, 3, 100, ""⟩,
                newTransfer (Env.ok "k1" 1) testDB3 ⟨1, 2, 100, ""⟩]
              Page := 1
              PageSize := 20
              Total := 2 } ∧
      TransferService.GetByUserID false false testDB3_ABC 9 1 20 =
        .ok { Data := some [], Page := 1, PageSize := 20, Total := 0 } :=
  ⟨getByUserID_listing testDB3_ABC 1 1 20 (by decide) (by decide) (by decide),
    by decide, by decide⟩

/-- C17 (defect of the code): for page 4611686018427387905 and page size 2, both
valid after normalisation, the product `(page - 1) * pageSize` is 2^63 and the
offset computed in Go's `int` wraps around to -2^63; for the largest `int` as
page and the default page size 20 it wraps to -40; and for page
4611686018427387905 with page size 4 it wraps to 0, the offset of page 1. -/
theorem offset_wraps_at_huge_page :
    ((1 : Int) ≤ 4611686018427387905 ∧ (1 : Int) ≤ 2 ∧ (2 : Int) ≤ 200 ∧
      ((4611686018427387905 : Int) - 1) * 2 = 9223372036854775808 ∧
      TransferRepository.GetByUserID.offset 4611686018427387905 2 = -9223372036854775808 ∧
      TransferRepository.GetByUserID.offset 4611686018427387905 2 ≠
        ((4611686018427387905 : Int) - 1) * 2 ∧
      TransferRepository.GetByUserID.offset 4611686018427387905 2 < 0) ∧
    ((1 : Int) ≤ 9223372036854775807 ∧ (1 : Int) ≤ 20 ∧ (20 : Int) ≤ 200 ∧
      TransferRepository.GetByUserID.offset 9223372036854775807 20 = -40) ∧
    (TransferRepository.GetByUserID.offset 4611686018427387905 4 = 0 ∧
      TransferRepository.GetByUserID.offset 4611686018427387905 4 =
        TransferRepository.GetByUserID.offset 1 4) := by
  decide

/-- Range in which the offset is exact (supporting fact for C17): for a page of
at least 1 and a page size from 1 to 200, the offset computed in Go's `int`
equals the product `(page - 1) * pageSize` and is non-negative whenever that
product is at most 2^63 - 1; this covers every page up to 46116860184273880 for
every page size, and no page beyond is guarded by the code. -/
theorem offset_exact_when_fits (page pageSize : Int) (hp : 1 ≤ page) (hs1 : 1 ≤ pageSize)
    (hs2 : pageSize ≤ 200) :
    ((page - 1) * pageSize ≤ maxInt64 →
      TransferRepository.GetByUserID.offset page pageSize = (page - 1) * pageSize ∧
      0 ≤ TransferRepository.GetByUserID.offset page pageSize) ∧
    (page ≤ 46116860184273880 →
      TransferRepository.GetByUserID.offset page pageSize = (page - 1) * pageSize ∧
      0 ≤ TransferRepository.GetByUserID.offset page pageSize) := by
  have key : (page - 1) * pageSize ≤ maxInt64 →
      TransferRepository.GetByUserID.offset page pageSize = (page - 1) * pageSize ∧
      0 ≤ TransferRepository.GetByUserID.offset page pageSize := by
    intro hfit
    rw [offset_eq_product hp hs1 hfit]
    exact ⟨rfl, by nlinarith⟩
  refine ⟨key, fun hpage => key ?_⟩
  have hmax : maxInt64 = 9223372036854775807 := rfl
  have h1 : (page - 1) * pageSize ≤ 46116860184273879 * 200 := by
    apply mul_le_mul <;> omega
  omega

/-- Example of exact offsets: page 3 with page size 20 gives the offset 40, and
the last page that cannot overflow, with page size 200, is exact as well. -/
theorem offset_exact_when_fits_witness :
    (TransferRepository.GetByUserID.offset 3 20 = (3 - 1) * 20 ∧
        0 ≤ TransferRepository.GetByUserID.offset 3 20) ∧
      (TransferRepository.GetByUserID.offset 46116860184273880 200 =
          (46116860184273880 - 1) * 200 ∧
        0 ≤ TransferRepository.GetByUserID.offset 46116860184273880 200) :=
  ⟨(offset_exact_when_fits 3 20 (by decide) (by decide) (by decide)).1 (by decide),
    (offset_exact_when_fits 46116860184273880 200 (by decide) (by decide) (by decide)).2
      (by decide)⟩

/-! ## User service -/

theorem userCreate_of_valid (fail : Bool) (now : Nat) (db : DB) (req : CreateUserRequest)
    (hv : req.FirstName ≠ "" ∧ req.LastName ≠ "" ∧
      req.FirstName.length ≤ 3 ∧ req.LastName.length ≤ 3) :
    UserService.Create fail now db req =
      if fail then (.error storageError, db)
      else
        (.ok { ID := nextRowID db.userSeq (db.users.map (fun u => u.ID))
               FirstName := req.FirstName
               LastName := req.LastName
               Email := req.Email
               Phone := req.Phone
               AvatarURL := req.AvatarURL
               Bio := req.Bio
               PointsBalance := 0
               CreatedAt := now
               UpdatedAt := now },
          { db with
            users := db.users ++ [
              { ID := nextRowID db.userSeq (db.users.map (fun u => u.ID))
                FirstName := req.FirstName
                LastName := req.LastName
                Email := req.Email
                Phone := req.Phone
                AvatarURL := req.AvatarURL
                Bio := req.Bio
                PointsBalance := 0
                CreatedAt := now
                UpdatedAt := now }]
            userSeq := nextRowID db.userSeq (db.users.map (fun u => u.ID)) }) := by
  obtain ⟨hf, hl, hf3, hl3⟩ := hv
  have h1 : ¬ req.FirstName.length > 3 := by omega
  have h2 : ¬ req.LastName.length > 3 := by omega
  have h3 : ¬ (req.FirstName = "" ∨ req.LastName = "") := by
    rintro (h | h)
    · exact hf h
    · exact hl h
  unfold UserService.Create UserRepository.Create
  rw [if_neg h1, if_neg h2, if_neg h3]
  cases fail <;> rfl

theorem userCreate_of_invalid (fail : Bool) (now : Nat) (db : DB) (req : CreateUserRequest)
    (hv : ¬ (req.FirstName ≠ "" ∧ req.LastName ≠ "" ∧
      req.FirstName.length ≤ 3 ∧ req.LastName.length ≤ 3)) :
    ∃ e, UserService.Create fail now db req = (.error e, db) := by
  unfold UserService.Create
  by_cases h1 : req.FirstName.length > 3
  · rw [if_pos h1]; exact ⟨_, rfl⟩
  rw [if_neg h1]
  by_cases h2 : req.LastName.length > 3
  · rw [if_pos h2]; exact ⟨_, rfl⟩
  rw [if_neg h2]
  by_cases h3 : req.FirstName = "" ∨ req.LastName = ""
  · rw [if_pos h3]; exact ⟨_, rfl⟩
  exfalso
  apply hv
  exact ⟨fun h => h3 (Or.inl h), fun h => h3 (Or.inr h), by omega, by omega⟩

/-- C16: with no storage failure `UserService.Create` succeeds exactly when first
and last name are both non-empty and of at most 3 characters; a request that
breaks this is rejected in every environment; every rejected request leaves the
database, hence the user table, as it was; an accepted one appends one row with
the names of the request and balance 0. -/
theorem userCreate_validates_names (now : Nat) (db : DB) (req : CreateUserRequest) :
    ((∃ u, (UserService.Create false now db req).1 = .ok u) ↔
      (req.FirstName ≠ "" ∧ req.LastName ≠ "" ∧
        req.FirstName.length ≤ 3 ∧ req.LastName.length ≤ 3)) ∧
    (¬ (req.FirstName ≠ "" ∧ req.LastName ≠ "" ∧
        req.FirstName.length ≤ 3 ∧ req.LastName.length ≤ 3) →
      ∀ fail, ∃ e, UserService.Create fail now db req = (.error e, db)) ∧
    (∀ fail e, (UserService.Create fail now db req).1 = .error e →
      (UserService.Create fail now db req).2 = db) ∧
    (∀ u, (UserService.Create false now db req).1 = .ok u →
      (UserService.Create false now db req).2.users = db.users ++ [u] ∧
      u.FirstName = req.FirstName ∧ u.LastName = req.LastName ∧ u.PointsBalance = 0) := by
  by_cases hv : req.FirstName ≠ "" ∧ req.LastName ≠ "" ∧
      req.FirstName.length ≤ 3 ∧ req.LastName.length ≤ 3
  · refine ⟨⟨fun _ => hv, fun _ => ?_⟩, fun h => absurd hv h, ?_, ?_⟩
    · rw [userCreate_of_valid false now db req hv]
      exact ⟨_, rfl⟩
    · intro fail e he
      rw [userCreate_of_valid fail now db req hv] at he ⊢
      cases fail
      · simp at he
      · rfl
    · intro u hu
      rw [userCreate_of_valid false now db req hv] at hu ⊢
      simp only [Bool.false_eq_true, if_false, Except.ok.injEq] at hu
      subst hu
      exact ⟨rfl, rfl, rfl, rfl⟩
  · refine ⟨⟨?_, fun h => absurd h hv⟩, fun _ fail => userCreate_of_invalid fail now db req hv,
      ?_, ?_⟩
    · rintro ⟨u, hu⟩
      obtain ⟨e, he⟩ := userCreate_of_invalid false now db req hv
      rw [he] at hu
      simp at hu
    · intro fail e _
      obtain ⟨e', he'⟩ := userCreate_of_invalid fail now db req hv
      rw [he']
    · intro u hu
      obtain ⟨e, he⟩ := userCreate_of_invalid false now db req hv
      rw [he] at hu
      simp at hu

/-- Witness for C16: the four cases of `TestUserNameValidation`. -/
theorem userCreate_validates_names_witness :
    (∃ u, (UserService.Create false 1 DB.empty ⟨"Tom", "Lee", "test@example.com", "", "", ""⟩).1 =
        .ok u) ∧
      (∃ e, UserService.Create false 1 DB.empty ⟨"Thomas", "Lee", "test@example.com", "", "", ""⟩ =
        (.error e, DB.empty)) ∧
      (∃ e, UserService.Create false 1 DB.empty ⟨"Tom", "Johnson", "test@example.com", "", "", ""⟩ =
        (.error e, DB.empty)) ∧
      (∃ e, UserService.Create false 1 DB.empty ⟨"", "", "test@example.com", "", "", ""⟩ =
        (.error e, DB.empty)) :=
  ⟨(userCreate_validates_names 1 DB.empty ⟨"Tom", "Lee", "test@example.com", "", "", ""⟩).1.mpr
      (by decide),
    (userCreate_validates_names 1 DB.empty ⟨"Thomas", "Lee", "test@example.com", "", "", ""⟩).2.1
      (by decide) false,
    (userCreate_validates_names 1 DB.empty ⟨"Tom", "Johnson", "test@example.com", "", "", ""⟩).2.1
      (by decide) false,
    (userCreate_validates_names 1 DB.empty ⟨"", "", "test@example.com", "", "", ""⟩).2.1
      (by decide) false⟩

theorem userRepositoryUpdate_cases (fail : Bool) (db : DB) (id : Int) (user : User) :
    (∃ e, UserRepository.Update fail db id user = .error e) ∨
      UserRepository.Update fail db id user =
        .ok { db with
          users := db.users.map (fun u => if u.ID == id then u.setProfile user else u) } := by
  unfold UserRepository.Update
  by_cases h1 : fail = true
  · rw [if_pos h1]; exact Or.inl ⟨_, rfl⟩
  rw [if_neg h1]
  by_cases h2 : (!db.hasUser id) = true
  · rw [if_pos h2]; exact Or.inl ⟨_, rfl⟩
  rw [if_neg h2]
  exact Or.inr rfl

theorem userUpdate_cases (failGet failUpdate : Bool) (now : Nat) (db : DB) (id : Int)
    (req : UpdateUserRequest) :
    (UserService.Update failGet failUpdate now db id req).2 = db ∨
      ∃ user : User, (UserService.Update failGet failUpdate now db id req).2 =
        { db with users := db.users.map (fun u => if u.ID == id then u.setProfile user else u) } := by
  unfold UserService.Update
  by_cases h1 : req.FirstName ≠ "" ∧ req.FirstName.length > 3
  · rw [if_pos h1]; exact Or.inl rfl
  rw [if_neg h1]
  by_cases h2 : req.LastName ≠ "" ∧ req.LastName.length > 3
  · rw [if_pos h2]; exact Or.inl rfl
  rw [if_neg h2]
  cases UserRepository.GetByID failGet db id with
  | error e => exact Or.inl rfl
  | ok existing =>
    simp only
    generalize hx : ({ existing with
        FirstName := if req.FirstName ≠ "" then req.FirstName else existing.FirstName
        LastName := if req.LastName ≠ "" then req.LastName else existing.LastName
        Email := if req.Email ≠ "" then req.Email else existing.Email
        Phone := if req.Phone ≠ "" then req.Phone else existing.Phone
        AvatarURL := if req.AvatarURL ≠ "" then req.AvatarURL else existing.AvatarURL
        Bio := if req.Bio ≠ "" then req.Bio else existing.Bio
        UpdatedAt := now } : User) = x
    rcases userRepositoryUpdate_cases failUpdate db id x with ⟨e, he⟩ | hok
    · rw [he]; exact Or.inl rfl
    · rw [hok]; exact Or.inr ⟨x, rfl⟩

theorem userDelete_cases (fail : Bool) (db : DB) (id : Int) :
    (UserService.Delete fail db id).2 = db ∨
      (UserService.Delete fail db id).2 =
        { db with users := db.users.filter (fun u => !(u.ID == id)) } := by
  unfold UserService.Delete UserRepository.Delete
  split_ifs
  · exact Or.inl rfl
  · exact Or.inl rfl
  · exact Or.inl rfl
  · exact Or.inr rfl

theorem createTransfer_fails_without_funds (env : Env) (db : DB) (req : CreateTransferRequest)
    (h0 : ∀ u ∈ db.users, u.PointsBalance = 0) :
    ∃ e, TransferService.CreateTransfer env db req = (.error e, db) := by
  rcases createTransfer_cases env db req with ⟨e, he⟩ | ⟨t, db', hok⟩
  · exact ⟨e, he⟩
  · exfalso
    have hfst : (TransferService.CreateTransfer env db req).1 = .ok t := by rw [hok]
    obtain ⟨bf, bt, hamt, -, hbf, -, hbal, -⟩ := createTransfer_ok_inv hfst
    obtain ⟨fu, hfu, rfl⟩ := find?_of_balance hbf
    have := h0 fu (List.mem_of_find?_eq_some hfu)
    omega

theorem serviceReachable_unfunded (db : DB) (h : ServiceReachable db) :
    (∀ u ∈ db.users, u.PointsBalance = 0) ∧ db.transfers = [] ∧ db.ledger = [] := by
  induction h with
  | empty =>
    refine ⟨?_, rfl, rfl⟩
    intro u hu; cases hu
  | createUser fail now db req _ ih =>
    obtain ⟨h0, ht, hl⟩ := ih
    rcases userCreate_cases fail now db req with heq | ⟨row, hrow0, -, heq⟩
    · rw [heq]; exact ⟨h0, ht, hl⟩
    · rw [heq]
      refine ⟨?_, ht, hl⟩
      intro u hu
      rcases List.mem_append.mp hu with hu | hu
      · exact h0 u hu
      · rw [List.mem_singleton] at hu
        rw [hu, hrow0]
  | updateUser failGet failUpdate now db id req _ ih =>
    obtain ⟨h0, ht, hl⟩ := ih
    rcases userUpdate_cases failGet failUpdate now db id req with heq | ⟨user, heq⟩
    · rw [heq]; exact ⟨h0, ht, hl⟩
    · rw [heq]
      refine ⟨?_, ht, hl⟩
      intro u hu
      simp only [List.mem_map] at hu
      obtain ⟨u0, hu0, rfl⟩ := hu
      split
      · exact h0 u0 hu0
      · exact h0 u0 hu0
  | deleteUser fail db id _ ih =>
    obtain ⟨h0, ht, hl⟩ := ih
    rcases userDelete_cases fail db id with heq | heq
    · rw [heq]; exact ⟨h0, ht, hl⟩
    · rw [heq]
      refine ⟨?_, ht, hl⟩
      intro u hu
      exact h0 u (List.mem_filter.mp hu).1
  | createTransfer env db req _ ih =>
    obtain ⟨e, he⟩ := createTransfer_fails_without_funds env db req ih.1
    rw [he]; exact ih

/-- C18: in every state reached from the empty database through
`UserService.Create`, `UserService.Update`, `UserService.Delete` and
`TransferService.CreateTransfer`, every balance is 0 and the transfer and ledger
tables are empty, and every `CreateTransfer` call in such a state fails and
leaves it unchanged. -/
theorem services_never_fund (db : DB) (h : ServiceReachable db) :
    (∀ u ∈ db.users, u.PointsBalance = 0) ∧ db.transfers = [] ∧ db.ledger = [] ∧
      ∀ (env : Env) (req : CreateTransferRequest),
        ∃ e, TransferService.CreateTransfer env db req = (.error e, db) := by
  obtain ⟨h0, ht, hl⟩ := serviceReachable_unfunded db h
  exact ⟨h0, ht, hl, fun env req => createTransfer_fails_without_funds env db req h0⟩

/-- Witness for C18: after Tom Lee and Ann Doe registered, both hold 0 points and
a transfer of a single point from Tom to Ann is refused for insufficient balance. -/
theorem services_never_fund_witness :
    ((∀ u ∈ registeredDB.users, u.PointsBalance = 0) ∧ registeredDB.transfers = [] ∧
        registeredDB.ledger = [] ∧
        ∀ (env : Env) (req : CreateTransferRequest),
          ∃ e, TransferService.CreateTransfer env registeredDB req = (.error e, registeredDB)) ∧
      registeredDB.balance 1 = some 0 ∧ registeredDB.balance 2 = some 0 ∧
      TransferService.CreateTransfer (Env.ok "k1" 3) registeredDB ⟨1, 2, 1, ""⟩ =
        (.error "insufficient balance", registeredDB) :=
  ⟨services_never_fund registeredDB
      (ServiceReachable.createUser false 2 _ ⟨"Ann", "Doe", "", "", "", ""⟩
        (ServiceReachable.createUser false 1 DB.empty
          ⟨"Tom", "Lee", "test@example.com", "", "", ""⟩ ServiceReachable.empty)),
    by decide, by decide, by decide⟩

end Backend
